import Mathlib

/-! Attach/mount orchestration of the Docker volume plugin (api/server/docker.go).

A shallow embedding of `scaleUp`, `attachScale`, `attachVol`,
`attachOptionsFromSpec`, `mountpath`, `mount` and `unmount`.

The volume driver (`volume.VolumeDriver`) is an external collaborator. It is
modelled as a record of state-passing functions over an arbitrary backend
state `σ`. Every call the plugin makes on the driver is appended, together
with what the driver answered, to a call log carried next to the backend
state, so that properties about which calls are issued can be stated.

Go's `scaleUp` loop has no bound of its own (a name collision advances the
index but not the counter), so the embedding of the loop takes a fuel
argument: one unit of fuel per execution of the loop body. A result `none`
means the loop was still running when the fuel ran out.
-/

namespace OpenStorage

deriving instance DecidableEq for Except

/-- Go `map[string]string`, as an association list. -/
abbrev StrMap := List (String × String)

/-- Go error values. The three sentinels are the package-level variables of
package `volume` that docker.go compares against by identity; `other` is any
other error, carrying its message; `wrapped pre e` is
`fmt.Errorf(pre + e.Error())`. -/
inductive Error where
  | ErrExist
  | ErrVolAttachedOnRemoteNode
  | ErrVolAttachedScale
  | other (msg : String)
  | wrapped (pre : String) (cause : Error)
deriving DecidableEq, Repr

/-- The enumeration `api.DriverType`. -/
inductive DriverType where
  | DRIVER_TYPE_NONE
  | DRIVER_TYPE_FILE
  | DRIVER_TYPE_BLOCK
  | DRIVER_TYPE_OBJECT
  | DRIVER_TYPE_CLUSTERED
  | DRIVER_TYPE_GRAPH
deriving DecidableEq, Repr

/-- The message `api.ReplicaSet`. -/
structure ReplicaSet where
  Nodes : List String
deriving DecidableEq, Repr

/-- The fields of `api.VolumeSpec` that docker.go reads or writes; `Rest`
stands for all the other fields, which are only ever copied. -/
structure VolumeSpec where
  Scale : Nat
  ReplicaSet : Option ReplicaSet
  Passphrase : String
  Rest : String
deriving DecidableEq, Repr

/-- The message `api.VolumeLocator`; a nil label map is the empty list. -/
structure VolumeLocator where
  Name : String
  VolumeLabels : StrMap
deriving DecidableEq, Repr

/-- The fields of `api.Volume` that the attach and mount paths use. -/
structure Volume where
  Id : String
  Locator : VolumeLocator
  Spec : VolumeSpec
deriving DecidableEq, Repr

/-- Modelled from the spec: `api.Volume.Scaled` is declared outside the
sources at hand; the spec calls a volume scaled when its scale is above 1. -/
def Volume.Scaled (vol : Volume) : Bool := decide (1 < vol.Spec.Scale)

/-- Constants and library functions that docker.go uses and that are declared
in other packages (`volume`, `options`, `path`). -/
structure Pkg where
  MountBase : String
  LocationConstraint : String
  LocalNode : String
  OptionsSecret : String
  OptionsDeleteAfterUnmount : String
  Join : String → String → String

/-- One call on the driver (or on the OS), with the answer it got. -/
inductive Call where
  | Enumerate (locator : VolumeLocator) (vols : List Volume) (err : Option Error)
  | Create (locator : VolumeLocator) (spec : VolumeSpec) (res : Except Error String)
  | VolumeFromName (name : String) (res : Except Error Volume)
  | Attach (volumeID : String) (options : Option StrMap) (res : Except Error String)
  | Detach (volumeID : String) (options : Option StrMap) (err : Option Error)
  | Mount (volumeID : String) (path : String) (options : Option StrMap) (err : Option Error)
  | Unmount (volumeID : String) (path : String) (options : Option StrMap) (err : Option Error)
  | MountedAt (path : String) (id : String)
  | MkdirAll (path : String)
deriving DecidableEq

/-- The interface `volume.VolumeDriver`, restricted to the operations
docker.go calls, over a backend state `σ`. `Enumerate` returns Go's pair
(list, error) as it is, because `attachScale` uses the list of its second
enumeration without looking at the error. `VolumeFromName` is
`util.VolumeFromName`, which lives outside the sources at hand. -/
structure VolumeDriver (σ : Type) where
  driverType : DriverType
  Create : VolumeLocator → VolumeSpec → σ → Except Error String × σ
  Enumerate : VolumeLocator → σ → (List Volume × Option Error) × σ
  Attach : String → Option StrMap → σ → Except Error String × σ
  Detach : String → Option StrMap → σ → Option Error × σ
  Mount : String → String → Option StrMap → σ → Option Error × σ
  Unmount : String → String → Option StrMap → σ → Option Error × σ
  MountedAt : String → σ → String
  VolumeFromName : String → σ → Except Error Volume × σ

/-- Backend state together with the log of calls issued so far, oldest
first. -/
structure World (σ : Type) where
  st : σ
  log : List Call

variable {σ : Type}

/-- The call `vd.Create(locator, nil, spec)`. -/
def vdCreate (v : VolumeDriver σ) (locator : VolumeLocator) (spec : VolumeSpec)
    (w : World σ) : Except Error String × World σ :=
  ((v.Create locator spec w.st).1,
   ⟨(v.Create locator spec w.st).2,
    w.log ++ [Call.Create locator spec (v.Create locator spec w.st).1]⟩)

/-- The call `vd.Enumerate(locator, nil)`. -/
def vdEnumerate (v : VolumeDriver σ) (locator : VolumeLocator)
    (w : World σ) : (List Volume × Option Error) × World σ :=
  ((v.Enumerate locator w.st).1,
   ⟨(v.Enumerate locator w.st).2,
    w.log ++ [Call.Enumerate locator (v.Enumerate locator w.st).1.1
      (v.Enumerate locator w.st).1.2]⟩)

/-- The call `vd.Attach(id, attachOptions)`. -/
def vdAttach (v : VolumeDriver σ) (id : String) (attachOptions : Option StrMap)
    (w : World σ) : Except Error String × World σ :=
  ((v.Attach id attachOptions w.st).1,
   ⟨(v.Attach id attachOptions w.st).2,
    w.log ++ [Call.Attach id attachOptions (v.Attach id attachOptions w.st).1]⟩)

/-- The call `v.Detach(id, options)`. -/
def vdDetach (v : VolumeDriver σ) (id : String) (options : Option StrMap)
    (w : World σ) : Option Error × World σ :=
  ((v.Detach id options w.st).1,
   ⟨(v.Detach id options w.st).2,
    w.log ++ [Call.Detach id options (v.Detach id options w.st).1]⟩)

/-- The call `v.Mount(id, path, options)`. -/
def vdMount (v : VolumeDriver σ) (id path : String) (options : Option StrMap)
    (w : World σ) : Option Error × World σ :=
  ((v.Mount id path options w.st).1,
   ⟨(v.Mount id path options w.st).2,
    w.log ++ [Call.Mount id path options (v.Mount id path options w.st).1]⟩)

/-- The call `v.Unmount(id, path, options)`. -/
def vdUnmount (v : VolumeDriver σ) (id path : String) (options : Option StrMap)
    (w : World σ) : Option Error × World σ :=
  ((v.Unmount id path options w.st).1,
   ⟨(v.Unmount id path options w.st).2,
    w.log ++ [Call.Unmount id path options (v.Unmount id path options w.st).1]⟩)

/-- The call `v.MountedAt(path)`, a lookup that cannot fail. -/
def vdMountedAt (v : VolumeDriver σ) (path : String)
    (w : World σ) : String × World σ :=
  (v.MountedAt path w.st,
   ⟨w.st, w.log ++ [Call.MountedAt path (v.MountedAt path w.st)]⟩)

/-- Source `driver.volFromName`, for a driver that `volumedrivers.Get` found:
it is `util.VolumeFromName(v, name)`. The whole lookup is one entry of the
log: the calls that `util.VolumeFromName` makes on the driver to answer it
are not logged one by one, so the counters over the log count the calls of
docker.go itself and do not look inside a lookup (see `VolumeFromName`
below for what a lookup asks of the driver). -/
def volFromName (v : VolumeDriver σ) (name : String)
    (w : World σ) : Except Error Volume × World σ :=
  ((v.VolumeFromName name w.st).1,
   ⟨(v.VolumeFromName name w.st).2,
    w.log ++ [Call.VolumeFromName name (v.VolumeFromName name w.st).1]⟩)

/-- The call `os.MkdirAll(path, 0755)`, whose result mount ignores. -/
def osMkdirAll (path : String) (w : World σ) : World σ :=
  ⟨w.st, w.log ++ [Call.MkdirAll path]⟩

/-- The verb `%03d` of `fmt.Sprintf` on a non-negative integer: decimal,
zero-padded on the left to at least three digits. -/
def pad3 (i : Nat) : String :=
  String.mk (List.replicate (3 - (Nat.repr i).length) '0') ++ Nat.repr i

/-- The replica name `fmt.Sprintf("%s_%03d", base, i)`. -/
def replicaName (base : String) (i : Nat) : String :=
  base ++ "_" ++ pad3 i

/-- Source `driver.mountpath`: `path.Join(volume.MountBase, name)`. -/
def mountpath (pk : Pkg) (name : String) : String :=
  pk.Join pk.MountBase name

/-- Source `driver.attachOptionsFromSpec`. -/
def attachOptionsFromSpec (pk : Pkg) (spec : VolumeSpec) : Option StrMap :=
  if spec.Passphrase ≠ "" then
    some [(pk.OptionsSecret, spec.Passphrase)]
  else
    none

/-- Source `driver.attachVol`: one Attach; the three branches of the switch
differ only in what they log. -/
def attachVol (v : VolumeDriver σ) (vol : Volume) (attachOptions : Option StrMap)
    (w : World σ) : (Volume × Option Error) × World σ :=
  match vdAttach v vol.Id attachOptions w with
  | (.ok _, w1) => ((vol, none), w1)
  | (.error .ErrVolAttachedOnRemoteNode, w1) =>
    ((vol, some .ErrVolAttachedOnRemoteNode), w1)
  | (.error err, w1) => ((vol, some err), w1)

/-- The loop of `driver.scaleUp` (lines 357-382), with index `i` and counter
`volCount`; `spec` is the spec prepared before the loop. -/
def scaleUpLoop (v : VolumeDriver σ) (inVol : Volume) (spec : VolumeSpec)
    (attachOptions : Option StrMap) :
    Nat → Nat → Nat → World σ → Option (Except Error Volume) × World σ
  | 0, _, volCount, w =>
    if volCount < inVol.Spec.Scale then (none, w)
    else (some (.error .ErrVolAttachedScale), w)
  | fuel + 1, i, volCount, w =>
    if volCount < inVol.Spec.Scale then
      match vdCreate v ⟨replicaName inVol.Locator.Name i, []⟩ spec w with
      | (.error err, w1) =>
        if err = .ErrExist then
          scaleUpLoop v inVol spec attachOptions fuel (i + 1) volCount w1
        else
          (some (.error err), w1)
      | (.ok id, w1) =>
        match volFromName v id w1 with
        | (.error err, w2) => (some (.error err), w2)
        | (.ok outVol, w2) =>
          match vdAttach v outVol.Id attachOptions w2 with
          | (.ok _, w3) => (some (.ok outVol), w3)
          | (.error _, w3) =>
            scaleUpLoop v inVol spec attachOptions fuel (i + 1) (volCount + 1) w3
    else
      (some (.error .ErrVolAttachedScale), w)

/-- The spec `scaleUp` creates replicas with: a copy with `Scale = 1` and
`ReplicaSet = nil`. -/
def scaleUpSpec (inVol : Volume) : VolumeSpec :=
  { inVol.Spec with Scale := 1, ReplicaSet := none }

/-- Source `driver.scaleUp`. -/
def scaleUp (fuel : Nat) (v : VolumeDriver σ) (inVol : Volume)
    (allVols : List Volume) (attachOptions : Option StrMap)
    (w : World σ) : Option (Except Error Volume) × World σ :=
  scaleUpLoop v inVol (scaleUpSpec inVol) attachOptions fuel
    allVols.length allVols.length w

/-- The locator of the first enumeration of `attachScale`: names matching
the base name, labelled as local to this node. -/
def localLocator (pk : Pkg) (inVol : Volume) : VolumeLocator :=
  ⟨inVol.Locator.Name ++ ".*", [(pk.LocationConstraint, pk.LocalNode)]⟩

/-- The locator of the second enumeration of `attachScale`: names matching
the base name, no label. -/
def allLocator (inVol : Volume) : VolumeLocator :=
  ⟨inVol.Locator.Name ++ ".*", []⟩

/-- The loop over the local replicas in `attachScale` (lines 407-411). -/
def attachLocalLoop (v : VolumeDriver σ) (attachOptions : Option StrMap) :
    List Volume → World σ → Option Volume × World σ
  | [], w => (none, w)
  | vol :: vols, w =>
    match attachVol v vol attachOptions w with
    | ((outVol, none), w1) => (some outVol, w1)
    | ((_, some _), w1) => attachLocalLoop v attachOptions vols w1

/-- The loop over all the replicas in `attachScale` (lines 423-427). -/
def attachExistingLoop (v : VolumeDriver σ) (attachOptions : Option StrMap) :
    List Volume → World σ → Option Volume × World σ
  | [], w => (none, w)
  | outVol :: vols, w =>
    match vdAttach v outVol.Id attachOptions w with
    | (.ok _, w1) => (some outVol, w1)
    | (.error _, w1) => attachExistingLoop v attachOptions vols w1

/-- The spec of the replica `attachScale` creates itself: a copy with the
replica set restricted to the local node and `Scale = 1`. -/
def localSpec (pk : Pkg) (inVol : Volume) : VolumeSpec :=
  { inVol.Spec with ReplicaSet := some ⟨[pk.LocalNode]⟩, Scale := 1 }

/-- Lines 429-448 of `driver.attachScale`: what happens once no replica of
`allVols` could be attached. -/
def attachScaleCreate (pk : Pkg) (fuel : Nat) (v : VolumeDriver σ) (inVol : Volume)
    (allVols : List Volume) (attachOptions : Option StrMap)
    (w : World σ) : Option (Except Error Volume) × World σ :=
  if allVols.length < inVol.Spec.Scale then
    match vdCreate v ⟨replicaName inVol.Locator.Name allVols.length, []⟩
        (localSpec pk inVol) w with
    | (.error _, w1) => scaleUp fuel v inVol allVols attachOptions w1
    | (.ok id, w1) =>
      match volFromName v id w1 with
      | (.error err, w2) => (some (.error err), w2)
      | (.ok outVol, w2) =>
        match vdAttach v outVol.Id attachOptions w2 with
        | (.ok _, w3) => (some (.ok outVol), w3)
        | (.error _, w3) =>
          scaleUp fuel v inVol (allVols ++ [outVol]) attachOptions w3
  else
    scaleUp fuel v inVol allVols attachOptions w

/-- Lines 413-448 of `driver.attachScale`: the unfiltered enumeration and
everything after it. The error of this enumeration is never looked at. -/
def attachScaleAll (pk : Pkg) (fuel : Nat) (v : VolumeDriver σ) (inVol : Volume)
    (attachOptions : Option StrMap)
    (w : World σ) : Option (Except Error Volume) × World σ :=
  match vdEnumerate v (allLocator inVol) w with
  | ((allVols, _), w1) =>
    match attachExistingLoop v attachOptions allVols w1 with
    | (some outVol, w2) => (some (.ok outVol), w2)
    | (none, w2) => attachScaleCreate pk fuel v inVol allVols attachOptions w2

/-- Lines 395-412 of `driver.attachScale`: enumerate the replicas local to
this node and try to attach each; a failed enumeration tries none. -/
def attachScaleLocal (pk : Pkg) (v : VolumeDriver σ) (inVol : Volume)
    (attachOptions : Option StrMap)
    (w : World σ) : Option Volume × World σ :=
  match vdEnumerate v (localLocator pk inVol) w with
  | ((vols, none), w1) => attachLocalLoop v attachOptions vols w1
  | ((_, some _), w1) => (none, w1)

/-- Source `driver.attachScale`. -/
def attachScale (pk : Pkg) (fuel : Nat) (v : VolumeDriver σ) (inVol : Volume)
    (attachOptions : Option StrMap)
    (w : World σ) : Option (Except Error Volume) × World σ :=
  match attachScaleLocal pk v inVol attachOptions w with
  | (some outVol, w1) => (some (.ok outVol), w1)
  | (none, w1) => attachScaleAll pk fuel v inVol attachOptions w1

/-- The error of mount when the occupant of the mount path cannot be
released: `fmt.Errorf("Cannot remount scaled volume(%v). Volume %v is
mounted at %v", name, id, mountpoint)`. -/
def remountError (name id mountpoint : String) : Error :=
  .other ("Cannot remount scaled volume(" ++ name ++ ")." ++
    " Volume " ++ id ++ " is mounted at " ++ mountpoint)

/-- Lines 513-544 of `driver.mount`: release what is mounted at the mount
path of a scaled volume. The result is the error mount answers with, if
any. -/
def mountRelease (v : VolumeDriver σ) (name : String) (vol : Volume)
    (mountpoint : String) (w : World σ) : Option Error × World σ :=
  if 1 < vol.Spec.Scale then
    match vdMountedAt v mountpoint w with
    | (id, w1) =>
      if id.length ≠ 0 then
        match vdUnmount v id mountpoint none w1 with
        | (some _, w2) => (some (remountError name id mountpoint), w2)
        | (none, w2) =>
          if v.driverType = .DRIVER_TYPE_BLOCK then
            match vdDetach v id none w2 with
            | (some _, w3) =>
              match vdMount v id mountpoint none w3 with
              | (_, w4) => (some (remountError name id mountpoint), w4)
            | (none, w3) => (none, w3)
          else
            (none, w2)
      else
        (none, w1)
  else
    (none, w)

/-- Lines 546-559 of `driver.mount`: on a block driver attach the volume,
through `attachScale` when it is scaled and `attachVol` otherwise. -/
def mountAttach (pk : Pkg) (fuel : Nat) (v : VolumeDriver σ) (vol : Volume)
    (attachOptions : Option StrMap)
    (w : World σ) : Option (Except Error Volume) × World σ :=
  if v.driverType = .DRIVER_TYPE_BLOCK then
    if vol.Scaled then
      attachScale pk fuel v vol attachOptions w
    else
      match attachVol v vol attachOptions w with
      | ((outVol, none), w1) => (some (.ok outVol), w1)
      | ((_, some err), w1) => (some (.error err), w1)
  else
    (some (.ok vol), w)

/-- Source `driver.mount`, from the decoded request on: `get` is the result
of `volumedrivers.Get(d.name)`, `spec` and `name` are what `SpecFromString`
made of the request name. The result is the mount point of the response, or
the error of the response. -/
def mount (pk : Pkg) (fuel : Nat) (get : Except Error (VolumeDriver σ))
    (spec : VolumeSpec) (name : String)
    (w : World σ) : Option (Except Error String) × World σ :=
  match get with
  | .error err => (some (.error err), w)
  | .ok v =>
    match volFromName v name w with
    | (.error err, w1) => (some (.error err), w1)
    | (.ok vol, w1) =>
      match mountRelease v name vol (mountpath pk name) w1 with
      | (some err, w2) => (some (.error err), w2)
      | (none, w2) =>
        match mountAttach pk fuel v vol (attachOptionsFromSpec pk spec) w2 with
        | (none, w3) => (none, w3)
        | (some (.error err), w3) => (some (.error err), w3)
        | (some (.ok outVol), w3) =>
          match vdMount v outVol.Id (mountpath pk name) none
              (osMkdirAll (mountpath pk name) w3) with
          | (some err, w4) => (some (.error err), w4)
          | (none, w4) => (some (.ok (mountpath pk name)), w4)

/-- Lines 747-762 of `driver.unmount`: unmount `id` with the
delete-after-unmount option, then detach on a block driver, ignoring the
result of the detach. -/
def unmountId (pk : Pkg) (v : VolumeDriver σ) (id mountpoint : String)
    (w : World σ) : Option Error × World σ :=
  match vdUnmount v id mountpoint
      (some [(pk.OptionsDeleteAfterUnmount, "true")]) w with
  | (some err, w1) => (some err, w1)
  | (none, w1) =>
    if v.driverType = .DRIVER_TYPE_BLOCK then
      (none, (vdDetach v id none w1).2)
    else
      (none, w1)

/-- Source `driver.unmount`, from the decoded request on. The result is the
error of the response, `none` for the empty response. -/
def unmount (pk : Pkg) (get : Except Error (VolumeDriver σ)) (name : String)
    (w : World σ) : Option Error × World σ :=
  match get with
  | .error err => (some err, w)
  | .ok v =>
    match volFromName v name w with
    | (.error err, w1) => (some (.wrapped "Failed to locate volume: " err), w1)
    | (.ok vol, w1) =>
      if 1 < vol.Spec.Scale then
        match vdMountedAt v (mountpath pk name) w1 with
        | (id, w2) =>
          if id.length = 0 then
            (some (.other ("Failed to find volume mapping for " ++ mountpath pk name)), w2)
          else
            unmountId pk v id (mountpath pk name) w2
      else
        unmountId pk v vol.Id (mountpath pk name) w1

/-! ## Counters over the call log -/

/-- Whether a call is a Create, whatever its result. -/
def Call.isCreate : Call → Bool
  | .Create _ _ _ => true
  | _ => false

/-- Whether a call is a Create that returned an id. -/
def Call.isCreateOk : Call → Bool
  | .Create _ _ (.ok _) => true
  | _ => false

/-- Whether a call is a Create that failed with `volume.ErrExist`. -/
def Call.isCreateExist : Call → Bool
  | .Create _ _ (.error .ErrExist) => true
  | _ => false

/-- Whether a call is a Create that did not fail with `volume.ErrExist`. -/
def Call.isCreateNonExist : Call → Bool
  | .Create _ _ (.error .ErrExist) => false
  | .Create _ _ _ => true
  | _ => false

/-- Whether a call is an Attach. -/
def Call.isAttach : Call → Bool
  | .Attach _ _ _ => true
  | _ => false

/-- Whether a call is an Enumerate. -/
def Call.isEnumerate : Call → Bool
  | .Enumerate _ _ _ => true
  | _ => false

/-- Whether a call is a backend Mount. -/
def Call.isMount : Call → Bool
  | .Mount _ _ _ _ => true
  | _ => false

/-- The replica names of the Create calls of a log, in order. -/
def createNames : List Call → List String
  | [] => []
  | .Create locator _ _ :: cs => locator.Name :: createNames cs
  | _ :: cs => createNames cs

/-- Number of Create calls in a log. -/
def createCount (log : List Call) : Nat := log.countP Call.isCreate

/-- Number of Create calls in a log that returned an id. -/
def createOkCount (log : List Call) : Nat := log.countP Call.isCreateOk

/-- Number of Create calls in a log that failed with `volume.ErrExist`. -/
def createExistCount (log : List Call) : Nat := log.countP Call.isCreateExist

/-- Number of Attach calls in a log. -/
def attachCount (log : List Call) : Nat := log.countP Call.isAttach

/-- Number of Enumerate calls in a log. -/
def enumerateCount (log : List Call) : Nat := log.countP Call.isEnumerate

/-- Number of backend Mount calls in a log. -/
def mountCount (log : List Call) : Nat := log.countP Call.isMount

/-- The call `c` is a failed Attach of the volume `vol` with options `o`. -/
def FailedAttach (o : Option StrMap) (c : Call) (vol : Volume) : Prop :=
  ∃ e, c = Call.Attach vol.Id o (.error e)

/-- What a loop over candidate replicas leaves behind: either it stopped at
the first candidate whose Attach succeeded, having issued one failed Attach
for each candidate before it, in order, and nothing else; or it issued one
failed Attach for every candidate, in order, and nothing else. -/
def LoopTrace (o : Option StrMap) (vols : List Volume) (w : World σ)
    (r : Option Volume × World σ) : Prop :=
  (∃ pre vol post fails p,
      vols = pre ++ vol :: post ∧ List.Forall₂ (FailedAttach o) fails pre ∧
      r.1 = some vol ∧ r.2.log = w.log ++ fails ++ [Call.Attach vol.Id o (.ok p)])
  ∨ (∃ fails, List.Forall₂ (FailedAttach o) fails vols ∧
      r.1 = none ∧ r.2.log = w.log ++ fails)

/-- The local replicas `attachScale` tries: the list of its first
enumeration when that enumeration reported no error, and none otherwise. -/
def localCandidates (pk : Pkg) (v : VolumeDriver σ) (inVol : Volume)
    (w : World σ) : List Volume :=
  match (vdEnumerate v (localLocator pk inVol) w).1 with
  | (vols, none) => vols
  | (_, some _) => []

/-- The log entry of the first enumeration of `attachScale`. -/
def localEnumerateCall (pk : Pkg) (v : VolumeDriver σ) (inVol : Volume)
    (w : World σ) : Call :=
  Call.Enumerate (localLocator pk inVol)
    (vdEnumerate v (localLocator pk inVol) w).1.1
    (vdEnumerate v (localLocator pk inVol) w).1.2

/-! ## Small concrete drivers, used to evaluate the code on examples -/

/-- Constants used in the examples. -/
def examplePkg : Pkg :=
  { MountBase := "/mnt"
    LocationConstraint := "LocationConstraint"
    LocalNode := "LocalNode"
    OptionsSecret := "SECRET_KEY"
    OptionsDeleteAfterUnmount := "DELETE_AFTER_UNMOUNT"
    Join := fun a b => a ++ "/" ++ b }

/-- A volume with the given id (also its name) and scale. -/
def mkVol (id : String) (scale : Nat) : Volume :=
  ⟨id, ⟨id, []⟩, ⟨scale, none, "", ""⟩⟩

/-- A stateless block driver described by its answers: the two enumerations,
and the answers of Create (by name) and Attach (by id). The id of a created
replica is its name; lookups, mounts, unmounts and detaches succeed. -/
def scripted (localVols allVols : List Volume × Option Error)
    (create : String → Except Error String)
    (attach : String → Except Error String) : VolumeDriver Unit :=
  { driverType := .DRIVER_TYPE_BLOCK
    Create := fun locator _ _ => (create locator.Name, ())
    Enumerate := fun locator _ =>
      (if locator.VolumeLabels = [] then allVols else localVols, ())
    Attach := fun id _ _ => (attach id, ())
    Detach := fun _ _ _ => (none, ())
    Mount := fun _ _ _ _ => (none, ())
    Unmount := fun _ _ _ _ => (none, ())
    MountedAt := fun _ _ => ""
    VolumeFromName := fun name _ => (.ok (mkVol name 1), ()) }

/-- A driver with two local replicas: `a` is attached on a remote node, `b`
attaches. -/
def remoteThenFree : VolumeDriver Unit :=
  scripted ([mkVol "a" 1, mkVol "b" 1], none) ([mkVol "a" 1, mkVol "b" 1], none)
    (fun n => .ok n)
    (fun id => if id = "a" then .error .ErrVolAttachedOnRemoteNode else .ok "/dev/b")

/-- A driver without replicas on which every Create collides with an
existing name. -/
def collide : VolumeDriver Unit :=
  scripted ([], none) ([], none) (fun _ => .error .ErrExist) (fun _ => .ok "")

/-- A driver whose local enumeration fails, while the unfiltered one returns
a replica that attaches. -/
def localEnumFails : VolumeDriver Unit :=
  scripted ([], some (.other "enumerate failed")) ([mkVol "c_000" 1], none)
    (fun n => .ok n) (fun _ => .ok "/dev/c")

/-- A block driver whose state is the id mounted at the one mount path
(empty when nothing is mounted there). Unmount succeeds and frees the path;
Detach and Mount fail and change nothing. Every volume has scale 2. -/
def stuck : VolumeDriver String :=
  { driverType := .DRIVER_TYPE_BLOCK
    Create := fun locator _ s => (.ok locator.Name, s)
    Enumerate := fun _ s => (([], none), s)
    Attach := fun _ _ s => (.ok "", s)
    Detach := fun _ _ s => (some (.other "device busy"), s)
    Mount := fun _ _ _ s => (some (.other "mount failed"), s)
    Unmount := fun _ _ _ _ => (none, "")
    MountedAt := fun _ s => s
    VolumeFromName := fun name s => (.ok (mkVol name 2), s) }

/-- A driver without replicas on which Create succeeds and the lookup of the
created replica fails. -/
def lookupFails : VolumeDriver Unit :=
  { scripted ([], none) ([], none) (fun n => .ok n) (fun _ => .ok "/dev/c") with
    VolumeFromName := fun _ _ => (.error (.other "lookup failed"), ()) }

/-- A driver without replicas on which Create succeeds and every created
replica attaches. -/
def fresh : VolumeDriver Unit :=
  scripted ([], none) ([], none) (fun n => .ok n) (fun _ => .ok "/dev/c")

/-- A block driver on which the logical volume `c` has scale 2 and no
replica yet; Create succeeds and every created replica attaches. -/
def freshScaled : VolumeDriver Unit :=
  { fresh with
    VolumeFromName := fun name _ =>
      (.ok (if name = "c" then mkVol "c" 2 else mkVol name 1), ()) }

/-- A file-type driver on which the logical volume `c` has scale 2. -/
def fileDriver : VolumeDriver Unit :=
  { freshScaled with driverType := .DRIVER_TYPE_FILE }

/-- Modelled from the spec: `util.VolumeFromName`, which `driver.volFromName`
hands the driver to, is declared outside the sources at hand. The backend
interface of the spec has no query by name other than
`Enumerate(locatorFilter, labelFilter)`. The lookup resolves `name` through
the driver: it asks for the volume whose id is `name` (`inspect`), and when
that does not give exactly one volume it enumerates with `name` as the
locator; it fails when that does not give exactly one volume either. The
text of its error is not fixed by the spec. -/
def VolumeFromName
    (inspect : List String → σ → (List Volume × Option Error) × σ)
    (enumerate : VolumeLocator → σ → (List Volume × Option Error) × σ)
    (name : String) (s : σ) : Except Error Volume × σ :=
  match inspect [name] s with
  | (([vol], none), s1) => (.ok vol, s1)
  | (_, s1) =>
    match enumerate ⟨name, []⟩ s1 with
    | (([vol], none), s2) => (.ok vol, s2)
    | (_, s2) => (.error (.other ("Cannot locate volume " ++ name)), s2)

/-- The one volume of the driver `served`: id `vol-1`, name `db1`, scale 1. -/
def servedVol : Volume := ⟨"vol-1", ⟨"db1", []⟩, ⟨1, none, "", ""⟩⟩

/-- A driver of the given type whose state is the list of the locators of the
Enumerate calls it has served, oldest first. It holds the volume `servedVol`
and answers Inspect by id and Enumerate by name; its lookup is
`VolumeFromName` over its own Inspect and Enumerate. Everything else
succeeds. -/
def served (t : DriverType) : VolumeDriver (List VolumeLocator) :=
  { driverType := t
    Create := fun locator _ s => (.ok locator.Name, s)
    Enumerate := fun locator s =>
      ((if locator.Name = "db1" then [servedVol] else [], none), s ++ [locator])
    Attach := fun _ _ s => (.ok "/dev/v1", s)
    Detach := fun _ _ s => (none, s)
    Mount := fun _ _ _ s => (none, s)
    Unmount := fun _ _ _ s => (none, s)
    MountedAt := fun _ _ => ""
    VolumeFromName :=
      VolumeFromName
        (fun ids s => ((if ids = ["vol-1"] then [servedVol] else [], none), s))
        (fun locator s =>
          ((if locator.Name = "db1" then [servedVol] else [], none), s ++ [locator])) }

/-- A block driver whose state is the list of the names of the replicas that
exist. Create adds a name that is free and fails with ErrExist on a name that
is taken; no Attach succeeds; the enumeration of the local replicas is empty,
and the unfiltered enumeration fails, returning no list. -/
def enumerateDown : VolumeDriver (List String) :=
  { driverType := .DRIVER_TYPE_BLOCK
    Create := fun locator _ s =>
      if locator.Name ∈ s then (.error .ErrExist, s)
      else (.ok locator.Name, s ++ [locator.Name])
    Enumerate := fun locator s =>
      if locator.VolumeLabels = [] then (([], some (.other "enumerate failed")), s)
      else (([], none), s)
    Attach := fun _ _ s => (.error (.other "busy"), s)
    Detach := fun _ _ s => (none, s)
    Mount := fun _ _ _ s => (none, s)
    Unmount := fun _ _ _ s => (none, s)
    MountedAt := fun _ _ => ""
    VolumeFromName := fun name s => (.ok (mkVol name 1), s) }

/-- The empty world over the trivial state. -/
def w0 : World Unit := ⟨(), []⟩

/-! ## Basic facts about the call log -/

theorem vdCreate_log (v : VolumeDriver σ) (l : VolumeLocator) (s : VolumeSpec)
    (w : World σ) :
    (vdCreate v l s w).2.log = w.log ++ [Call.Create l s (vdCreate v l s w).1] := rfl

theorem vdEnumerate_log (v : VolumeDriver σ) (l : VolumeLocator) (w : World σ) :
    (vdEnumerate v l w).2.log =
      w.log ++ [Call.Enumerate l (vdEnumerate v l w).1.1 (vdEnumerate v l w).1.2] := rfl

theorem vdAttach_log (v : VolumeDriver σ) (id : String) (o : Option StrMap)
    (w : World σ) :
    (vdAttach v id o w).2.log = w.log ++ [Call.Attach id o (vdAttach v id o w).1] := rfl

theorem volFromName_log (v : VolumeDriver σ) (name : String) (w : World σ) :
    (volFromName v name w).2.log =
      w.log ++ [Call.VolumeFromName name (volFromName v name w).1] := rfl

theorem vdCreate_eq {v : VolumeDriver σ} {l : VolumeLocator} {s : VolumeSpec}
    {w w1 : World σ} {r : Except Error String} (h : vdCreate v l s w = (r, w1)) :
    w1.log = w.log ++ [Call.Create l s r] := by
  have h1 := vdCreate_log v l s w
  rw [h] at h1
  exact h1

theorem vdAttach_eq {v : VolumeDriver σ} {id : String} {o : Option StrMap}
    {w w1 : World σ} {r : Except Error String} (h : vdAttach v id o w = (r, w1)) :
    w1.log = w.log ++ [Call.Attach id o r] := by
  have h1 := vdAttach_log v id o w
  rw [h] at h1
  exact h1

theorem volFromName_eq {v : VolumeDriver σ} {name : String}
    {w w1 : World σ} {r : Except Error Volume} (h : volFromName v name w = (r, w1)) :
    w1.log = w.log ++ [Call.VolumeFromName name r] := by
  have h1 := volFromName_log v name w
  rw [h] at h1
  exact h1

theorem vdEnumerate_eq {v : VolumeDriver σ} {l : VolumeLocator}
    {w w1 : World σ} {vols : List Volume} {e : Option Error}
    (h : vdEnumerate v l w = ((vols, e), w1)) :
    w1.log = w.log ++ [Call.Enumerate l vols e] := by
  have h1 := vdEnumerate_log v l w
  rw [h] at h1
  exact h1

/-- One pass of the `scaleUp` loop never makes more successful Create calls
than the room left under the scale. -/
theorem scaleUpLoop_createOk (v : VolumeDriver σ) (inVol : Volume) (spec : VolumeSpec)
    (o : Option StrMap) (fuel : Nat) :
    ∀ (i volCount : Nat) (w : World σ),
      createOkCount (scaleUpLoop v inVol spec o fuel i volCount w).2.log ≤
        createOkCount w.log + (inVol.Spec.Scale - volCount) := by
  induction fuel with
  | zero =>
    intro i volCount w
    unfold scaleUpLoop
    split <;> simp
  | succ n ih =>
    intro i volCount w
    unfold scaleUpLoop
    split
    · rename_i hlt
      split
      · rename_i err w1 hc
        have hl := vdCreate_eq hc
        split
        · refine le_trans (ih _ _ _) ?_
          simp [hl, createOkCount, Call.isCreateOk]
        · simp [hl, createOkCount, Call.isCreateOk]
      · rename_i id w1 hc
        have hl := vdCreate_eq hc
        split
        · rename_i err w2 hv
          have hl2 := volFromName_eq hv
          simp [hl2, hl, createOkCount, Call.isCreateOk]
          omega
        · rename_i outVol w2 hv
          have hl2 := volFromName_eq hv
          split
          · rename_i p w3 ha
            have hl3 := vdAttach_eq ha
            simp [hl3, hl2, hl, createOkCount, Call.isCreateOk]
            omega
          · rename_i e w3 ha
            have hl3 := vdAttach_eq ha
            refine le_trans (ih _ _ _) ?_
            simp [hl3, hl2, hl, createOkCount, Call.isCreateOk]
            omega
    · simp

theorem attachVol_snd (v : VolumeDriver σ) (vol : Volume) (o : Option StrMap)
    (w : World σ) : (attachVol v vol o w).2 = (vdAttach v vol.Id o w).2 := by
  unfold attachVol
  split <;> simp_all

theorem attachVol_vol (v : VolumeDriver σ) (vol : Volume) (o : Option StrMap)
    (w : World σ) : (attachVol v vol o w).1.1 = vol := by
  unfold attachVol
  split <;> rfl

theorem attachVol_err (v : VolumeDriver σ) (vol : Volume) (o : Option StrMap)
    (w : World σ) :
    (attachVol v vol o w).1.2 =
      match (vdAttach v vol.Id o w).1 with
      | .ok _ => none
      | .error e => some e := by
  unfold attachVol
  split <;> simp_all

theorem loopTrace_cons_fail {o : Option StrMap} {vol : Volume} {vols : List Volume}
    {w w1 : World σ} {e : Error} {r : Option Volume × World σ}
    (hl : w1.log = w.log ++ [Call.Attach vol.Id o (.error e)])
    (h : LoopTrace o vols w1 r) : LoopTrace o (vol :: vols) w r := by
  rcases h with ⟨pre, x, post, fails, p, hv, hf, hr, hlog⟩ | ⟨fails, hf, hr, hlog⟩
  · left
    refine ⟨vol :: pre, x, post, Call.Attach vol.Id o (.error e) :: fails, p, ?_, ?_, hr, ?_⟩
    · simp [hv]
    · exact List.Forall₂.cons ⟨e, rfl⟩ hf
    · simp [hlog, hl]
  · right
    refine ⟨Call.Attach vol.Id o (.error e) :: fails, ?_, hr, ?_⟩
    · exact List.Forall₂.cons ⟨e, rfl⟩ hf
    · simp [hlog, hl]

theorem attachExistingLoop_trace (v : VolumeDriver σ) (o : Option StrMap)
    (vols : List Volume) :
    ∀ w : World σ, LoopTrace o vols w (attachExistingLoop v o vols w) := by
  induction vols with
  | nil =>
    intro w
    right
    exact ⟨[], List.Forall₂.nil, rfl, by simp [attachExistingLoop]⟩
  | cons vol vols ih =>
    intro w
    unfold attachExistingLoop
    split
    · rename_i p w1 ha
      left
      exact ⟨[], vol, vols, [], p, rfl, List.Forall₂.nil, rfl, by simp [vdAttach_eq ha]⟩
    · rename_i e w1 ha
      exact loopTrace_cons_fail (vdAttach_eq ha) (ih w1)

theorem attachLocalLoop_trace (v : VolumeDriver σ) (o : Option StrMap)
    (vols : List Volume) :
    ∀ w : World σ, LoopTrace o vols w (attachLocalLoop v o vols w) := by
  induction vols with
  | nil =>
    intro w
    right
    exact ⟨[], List.Forall₂.nil, rfl, by simp [attachLocalLoop]⟩
  | cons vol vols ih =>
    intro w
    unfold attachLocalLoop
    have hvol := attachVol_vol v vol o w
    have herr := attachVol_err v vol o w
    have hsnd := attachVol_snd v vol o w
    split
    · rename_i outVol w1 ha
      rw [ha] at hvol herr hsnd
      simp only at hvol herr hsnd
      cases hr : (vdAttach v vol.Id o w).1 with
      | error e => rw [hr] at herr; simp at herr
      | ok p =>
        left
        refine ⟨[], vol, vols, [], p, rfl, List.Forall₂.nil, by simp [hvol], ?_⟩
        rw [hsnd, vdAttach_log, hr]
        simp
    · rename_i x e w1 ha
      rw [ha] at hvol herr hsnd
      simp only at hvol herr hsnd
      cases hr : (vdAttach v vol.Id o w).1 with
      | ok p => rw [hr] at herr; simp at herr
      | error e2 =>
        refine loopTrace_cons_fail (e := e2) ?_ (ih w1)
        rw [hsnd, vdAttach_log, hr]

/-- Failed attaches do not count for a counter that ignores Attach calls. -/
theorem countP_failed (q : Call → Bool) (hq : ∀ id o r, q (Call.Attach id o r) = false)
    {o : Option StrMap} {fails : List Call} {vols : List Volume}
    (h : List.Forall₂ (FailedAttach o) fails vols) : fails.countP q = 0 := by
  induction h with
  | nil => rfl
  | cons hc _ ih =>
    obtain ⟨e, rfl⟩ := hc
    simp [List.countP_cons, ih, hq]

/-- A loop over candidates leaves every counter that ignores Attach calls
unchanged. -/
theorem loopTrace_countP (q : Call → Bool) (hq : ∀ id o r, q (Call.Attach id o r) = false)
    {o : Option StrMap} {vols : List Volume} {w : World σ}
    {r : Option Volume × World σ} (h : LoopTrace o vols w r) :
    r.2.log.countP q = w.log.countP q := by
  rcases h with ⟨pre, x, post, fails, p, _, hf, _, hlog⟩ | ⟨fails, hf, _, hlog⟩
  · simp [hlog, List.countP_append, countP_failed q hq hf, hq]
  · simp [hlog, List.countP_append, countP_failed q hq hf]

theorem scaleUp_createOk (fuel : Nat) (v : VolumeDriver σ) (inVol : Volume)
    (allVols : List Volume) (o : Option StrMap) (w : World σ) :
    createOkCount (scaleUp fuel v inVol allVols o w).2.log ≤
      createOkCount w.log + (inVol.Spec.Scale - allVols.length) :=
  scaleUpLoop_createOk v inVol (scaleUpSpec inVol) o fuel _ _ w

/-- The creation part of `attachScale` makes at most `scale - m` successful
Create calls, `m` being the number of replicas it was entered with. -/
theorem attachScaleCreate_createOk (pk : Pkg) (fuel : Nat) (v : VolumeDriver σ)
    (inVol : Volume) (allVols : List Volume) (o : Option StrMap) (w : World σ) :
    createOkCount (attachScaleCreate pk fuel v inVol allVols o w).2.log ≤
      createOkCount w.log + (inVol.Spec.Scale - allVols.length) := by
  unfold attachScaleCreate
  split
  · rename_i hlt
    split
    · rename_i e w1 hc
      refine le_trans (scaleUp_createOk _ _ _ _ _ _) ?_
      simp [vdCreate_eq hc, createOkCount, Call.isCreateOk]
    · rename_i id w1 hc
      have hl := vdCreate_eq hc
      split
      · rename_i err w2 hv
        simp [volFromName_eq hv, hl, createOkCount, Call.isCreateOk]
        omega
      · rename_i outVol w2 hv
        have hl2 := volFromName_eq hv
        split
        · rename_i p w3 ha
          simp [vdAttach_eq ha, hl2, hl, createOkCount, Call.isCreateOk]
          omega
        · rename_i e w3 ha
          refine le_trans (scaleUp_createOk _ _ _ _ _ _) ?_
          simp [vdAttach_eq ha, hl2, hl, createOkCount, Call.isCreateOk]
          omega
  · exact scaleUp_createOk _ _ _ _ _ _

theorem attachScaleAll_createOk (pk : Pkg) (fuel : Nat) (v : VolumeDriver σ)
    (inVol : Volume) (o : Option StrMap) (w : World σ) :
    createOkCount (attachScaleAll pk fuel v inVol o w).2.log ≤
      createOkCount w.log +
        (inVol.Spec.Scale - (v.Enumerate (allLocator inVol) w.st).1.1.length) := by
  unfold attachScaleAll
  split
  rename_i allVols e w1 he
  have hvols : (v.Enumerate (allLocator inVol) w.st).1.1 = allVols := by
    have : (vdEnumerate v (allLocator inVol) w).1.1 = allVols := by rw [he]
    exact this
  have hl := vdEnumerate_eq he
  have hloop := loopTrace_countP Call.isCreateOk (fun _ _ _ => rfl)
    (attachExistingLoop_trace v o allVols w1)
  have hw1 : createOkCount w1.log = createOkCount w.log := by
    simp [hl, createOkCount, Call.isCreateOk]
  rw [hvols]
  split
  · rename_i outVol w2 hx
    rw [hx] at hloop
    simp only [createOkCount] at hw1 hloop ⊢
    omega
  · rename_i w2 hx
    rw [hx] at hloop
    refine le_trans (attachScaleCreate_createOk _ _ _ _ _ _ _) ?_
    simp only [createOkCount] at hw1 hloop ⊢
    omega

theorem attachScaleLocal_countP (q : Call → Bool)
    (hq : ∀ id o r, q (Call.Attach id o r) = false)
    (he : ∀ l vols e, q (Call.Enumerate l vols e) = false)
    (pk : Pkg) (v : VolumeDriver σ) (inVol : Volume) (o : Option StrMap) (w : World σ) :
    (attachScaleLocal pk v inVol o w).2.log.countP q = w.log.countP q := by
  unfold attachScaleLocal
  split
  · rename_i vols w1 h
    rw [loopTrace_countP q hq (attachLocalLoop_trace v o vols w1)]
    simp [vdEnumerate_eq h, he]
  · rename_i vols e w1 h
    simp [vdEnumerate_eq h, he]

/-- The bound on creation relative to what the unfiltered enumeration
returns: for a volume of scale k, when no local replica attaches and the
unfiltered enumeration returns a list of m < k replicas, one run of
`attachScale` (its `scaleUp` fallback included), however long it is let run,
makes at most k - m successful Create calls. This m is the length of the
returned list, whether or not the enumeration reported an error; it is the
number of existing replicas only when the enumeration is truthful. -/
theorem attachScale_creates_at_most (pk : Pkg) (fuel : Nat) (v : VolumeDriver σ)
    (inVol : Volume) (o : Option StrMap) (w w1 : World σ) (k m : Nat)
    (hk : inVol.Spec.Scale = k)
    (hlocal : attachScaleLocal pk v inVol o w = (none, w1))
    (hm : (v.Enumerate (allLocator inVol) w1.st).1.1.length = m)
    (hmk : m < k) :
    createOkCount (attachScale pk fuel v inVol o w).2.log ≤
        createOkCount w.log + (k - m) ∧
      m + createOkCount (attachScale pk fuel v inVol o w).2.log ≤
        createOkCount w.log + k := by
  have h1 : createOkCount w1.log = createOkCount w.log := by
    have := attachScaleLocal_countP Call.isCreateOk (fun _ _ _ => rfl) (fun _ _ _ => rfl)
      pk v inVol o w
    rw [hlocal] at this
    exact this
  have h2 := attachScaleAll_createOk pk fuel v inVol o w1
  have h3 : attachScale pk fuel v inVol o w = attachScaleAll pk fuel v inVol o w1 := by
    unfold attachScale
    rw [hlocal]
  rw [h3, hm, hk, h1] at *
  omega

/-- The bound relative to the enumeration, at an example: scale 3, one
enumerated replica that does not attach, every Create succeeds and no created
replica attaches. -/
theorem attachScale_creates_at_most_witness :
    createOkCount (attachScale examplePkg 5
        (scripted ([], none) ([mkVol "c_000" 1], none) (fun n => .ok n)
          (fun _ => .error (.other "busy")))
        (mkVol "c" 3) none w0).2.log ≤ createOkCount w0.log + (3 - 1) ∧
      1 + createOkCount (attachScale examplePkg 5
        (scripted ([], none) ([mkVol "c_000" 1], none) (fun n => .ok n)
          (fun _ => .error (.other "busy")))
        (mkVol "c" 3) none w0).2.log ≤ createOkCount w0.log + 3 :=
  attachScale_creates_at_most examplePkg 5 _ (mkVol "c" 3) none w0
    ⟨(), [Call.Enumerate (localLocator examplePkg (mkVol "c" 3)) [] none]⟩ 3 1
    rfl rfl rfl (by decide)

theorem attachScaleLocal_trace (pk : Pkg) (v : VolumeDriver σ) (inVol : Volume)
    (o : Option StrMap) (w : World σ) :
    LoopTrace o (localCandidates pk v inVol w)
      (vdEnumerate v (localLocator pk inVol) w).2
      (attachScaleLocal pk v inVol o w) := by
  rcases h : vdEnumerate v (localLocator pk inVol) w with ⟨⟨vols, e⟩, w1⟩
  cases e with
  | none =>
    simp only [attachScaleLocal, localCandidates, h]
    exact attachLocalLoop_trace v o vols w1
  | some e =>
    simp only [attachScaleLocal, localCandidates, h]
    right
    exact ⟨[], List.Forall₂.nil, rfl, by simp⟩

theorem attachScaleAll_trace (pk : Pkg) (fuel : Nat) (v : VolumeDriver σ)
    (inVol : Volume) (o : Option StrMap) (w : World σ) :
    ∃ allVols e,
      (vdEnumerate v (allLocator inVol) w).1 = (allVols, e) ∧
      ((∃ pre vol post fails p,
          allVols = pre ++ vol :: post ∧ List.Forall₂ (FailedAttach o) fails pre ∧
          (attachScaleAll pk fuel v inVol o w).1 = some (.ok vol) ∧
          (attachScaleAll pk fuel v inVol o w).2.log =
            w.log ++ Call.Enumerate (allLocator inVol) allVols e :: fails ++
              [Call.Attach vol.Id o (.ok p)])
       ∨ (∃ fails w3,
          List.Forall₂ (FailedAttach o) fails allVols ∧
          w3.log = w.log ++ Call.Enumerate (allLocator inVol) allVols e :: fails ∧
          attachScaleAll pk fuel v inVol o w =
            attachScaleCreate pk fuel v inVol allVols o w3)) := by
  unfold attachScaleAll
  split
  rename_i allVols e w1 he
  refine ⟨allVols, e, by rw [he], ?_⟩
  have hl := vdEnumerate_eq he
  have ht := attachExistingLoop_trace v o allVols w1
  split
  · rename_i outVol w2 hx
    rw [hx] at ht
    rcases ht with ⟨pre, x, post, fails, p, hv, hf, hr, hlog⟩ | ⟨fails, hf, hr, hlog⟩
    · left
      simp only [Option.some.injEq] at hr hlog
      subst hr
      exact ⟨pre, outVol, post, fails, p, hv, hf, rfl, by simp [hlog, hl]⟩
    · simp at hr
  · rename_i w2 hx
    rw [hx] at ht
    rcases ht with ⟨pre, x, post, fails, p, hv, hf, hr, hlog⟩ | ⟨fails, hf, hr, hlog⟩
    · simp at hr
    · right
      simp only at hlog
      exact ⟨fails, w2, hf, by simp [hlog, hl], rfl⟩

/-- C2. `attachScale` prefers local replicas and follows enumeration order.
Its calls have one of three shapes. (1) Enumerate(local), a failed Attach for
each local replica before some local replica `vol`, in order, and the
successful Attach of `vol`, which is the result: nothing else is called, so no
replica of the unfiltered enumeration is tried and nothing is created.
(2) Enumerate(local), a failed Attach for every local replica, in order,
Enumerate(all), a failed Attach for each replica before some replica `vol`
of that enumeration, in order, and the successful Attach of `vol`, which is
the result: nothing is created. (3) Every local replica and every replica of
the unfiltered enumeration was tried once, in order, and failed, and the run
goes on with the creation part. Moreover a local replica whose Attach answers
`ErrVolAttachedOnRemoteNode` is a failed candidate: the loop goes on with
the next one. -/
theorem attachScale_prefers_local_in_order (pk : Pkg) (fuel : Nat) (v : VolumeDriver σ)
    (inVol : Volume) (o : Option StrMap) (w : World σ) :
    ((∃ pre vol post fails p,
        localCandidates pk v inVol w = pre ++ vol :: post ∧
        List.Forall₂ (FailedAttach o) fails pre ∧
        (attachScale pk fuel v inVol o w).1 = some (.ok vol) ∧
        (attachScale pk fuel v inVol o w).2.log =
          w.log ++ localEnumerateCall pk v inVol w :: fails ++
            [Call.Attach vol.Id o (.ok p)])
     ∨ (∃ fails allVols e,
        List.Forall₂ (FailedAttach o) fails (localCandidates pk v inVol w) ∧
        ((∃ pre vol post fails2 p,
            allVols = pre ++ vol :: post ∧
            List.Forall₂ (FailedAttach o) fails2 pre ∧
            (attachScale pk fuel v inVol o w).1 = some (.ok vol) ∧
            (attachScale pk fuel v inVol o w).2.log =
              w.log ++ localEnumerateCall pk v inVol w :: fails ++
                Call.Enumerate (allLocator inVol) allVols e :: fails2 ++
                [Call.Attach vol.Id o (.ok p)])
         ∨ (∃ fails2 w3,
            List.Forall₂ (FailedAttach o) fails2 allVols ∧
            w3.log = w.log ++ localEnumerateCall pk v inVol w :: fails ++
              Call.Enumerate (allLocator inVol) allVols e :: fails2 ∧
            attachScale pk fuel v inVol o w =
              attachScaleCreate pk fuel v inVol allVols o w3))))
    ∧ (∀ (vol : Volume) (vols : List Volume) (w1 : World σ),
        (v.Attach vol.Id o w1.st).1 = .error .ErrVolAttachedOnRemoteNode →
        attachLocalLoop v o (vol :: vols) w1 =
          attachLocalLoop v o vols (vdAttach v vol.Id o w1).2) := by
  constructor
  · have hL := attachScaleLocal_trace pk v inVol o w
    have hE : (vdEnumerate v (localLocator pk inVol) w).2.log =
        w.log ++ [localEnumerateCall pk v inVol w] := rfl
    unfold attachScale
    split
    · rename_i outVol w1 hx
      rw [hx] at hL
      rcases hL with ⟨pre, x, post, fails, p, hv, hf, hr, hlog⟩ | ⟨fails, hf, hr, hlog⟩
      · left
        simp only [Option.some.injEq] at hr hlog
        subst hr
        exact ⟨pre, outVol, post, fails, p, hv, hf, rfl, by simp [hlog, hE]⟩
      · simp at hr
    · rename_i w1 hx
      rw [hx] at hL
      rcases hL with ⟨pre, x, post, fails, p, hv, hf, hr, hlog⟩ | ⟨fails, hf, hr, hlog⟩
      · simp at hr
      · right
        obtain ⟨allVols, e, _, hcases⟩ := attachScaleAll_trace pk fuel v inVol o w1
        refine ⟨fails, allVols, e, hf, ?_⟩
        simp only at hlog
        rcases hcases with ⟨pre, vol, post, fails2, p, hv, hf2, hr2, hlog2⟩ |
          ⟨fails2, w3, hf2, hlog2, heq⟩
        · left
          exact ⟨pre, vol, post, fails2, p, hv, hf2, hr2, by simp [hlog2, hlog, hE]⟩
        · right
          exact ⟨fails2, w3, hf2, by simp [hlog2, hlog, hE], heq⟩
  · intro vol vols w1 h
    have h1 : (vdAttach v vol.Id o w1).1 = .error .ErrVolAttachedOnRemoteNode := h
    have hvol := attachVol_vol v vol o w1
    have herr := attachVol_err v vol o w1
    have hsnd := attachVol_snd v vol o w1
    rw [h1] at herr
    simp only at herr
    conv_lhs => unfold attachLocalLoop
    split
    · rename_i outVol w2 ha
      rw [ha] at herr
      simp at herr
    · rename_i x e w2 ha
      rw [ha] at hsnd
      simp only at hsnd
      rw [hsnd]

/-- C2, at an example: of the local replicas `a` (attached on a remote node)
and `b`, the loop passes over `a`, and `attachScale` returns `b`. -/
theorem attachScale_prefers_local_in_order_witness :
    attachLocalLoop remoteThenFree none [mkVol "a" 1, mkVol "b" 1] w0 =
        attachLocalLoop remoteThenFree none [mkVol "b" 1]
          (vdAttach remoteThenFree (mkVol "a" 1).Id none w0).2 ∧
      (attachScale examplePkg 0 remoteThenFree (mkVol "c" 2) none w0).1 =
        some (.ok (mkVol "b" 1)) :=
  ⟨(attachScale_prefers_local_in_order examplePkg 0 remoteThenFree (mkVol "c" 2) none w0).2
      (mkVol "a" 1) [mkVol "b" 1] w0 rfl, rfl⟩

theorem isCreateNonExist_error (l : VolumeLocator) (s : VolumeSpec) (e : Error) :
    Call.isCreateNonExist (Call.Create l s (.error e)) = decide (e ≠ .ErrExist) := by
  cases e <;> simp [Call.isCreateNonExist]

/-- Every Create either failed with ErrExist or did not. -/
theorem createCount_split (log : List Call) :
    createCount log = log.countP Call.isCreateNonExist + createExistCount log := by
  induction log with
  | nil => rfl
  | cons c cs ih =>
    simp only [createCount, createExistCount, List.countP_cons] at ih ⊢
    rw [ih]
    cases c with
    | Create l s r =>
      cases r with
      | ok id =>
        simp [Call.isCreate, Call.isCreateNonExist, Call.isCreateExist]
        omega
      | error e =>
        cases e <;> simp [Call.isCreate, Call.isCreateNonExist, Call.isCreateExist] <;> omega
    | _ => simp [Call.isCreate, Call.isCreateNonExist, Call.isCreateExist]

/-- The `scaleUp` loop issues at most `scale - volCount` Create calls that do
not fail with ErrExist. -/
theorem scaleUpLoop_nonExist (v : VolumeDriver σ) (inVol : Volume) (spec : VolumeSpec)
    (o : Option StrMap) (fuel : Nat) :
    ∀ (i volCount : Nat) (w : World σ),
      (scaleUpLoop v inVol spec o fuel i volCount w).2.log.countP Call.isCreateNonExist ≤
        w.log.countP Call.isCreateNonExist + (inVol.Spec.Scale - volCount) := by
  induction fuel with
  | zero =>
    intro i volCount w
    unfold scaleUpLoop
    split <;> simp
  | succ n ih =>
    intro i volCount w
    unfold scaleUpLoop
    split
    · rename_i hlt
      split
      · rename_i err w1 hc
        have hl := vdCreate_eq hc
        split
        · rename_i herr
          refine le_trans (ih _ _ _) ?_
          simp [hl, isCreateNonExist_error, herr]
        · rename_i herr
          simp [hl, isCreateNonExist_error, herr]
          omega
      · rename_i id w1 hc
        have hl := vdCreate_eq hc
        split
        · rename_i err w2 hv
          have hl2 := volFromName_eq hv
          simp [hl2, hl, Call.isCreateNonExist]
          omega
        · rename_i outVol w2 hv
          have hl2 := volFromName_eq hv
          split
          · rename_i p w3 ha
            have hl3 := vdAttach_eq ha
            simp [hl3, hl2, hl, Call.isCreateNonExist]
            omega
          · rename_i e w3 ha
            have hl3 := vdAttach_eq ha
            refine le_trans (ih _ _ _) ?_
            simp [hl3, hl2, hl, Call.isCreateNonExist]
            omega
    · simp

theorem attachScaleCreate_nonExist (pk : Pkg) (fuel : Nat) (v : VolumeDriver σ)
    (inVol : Volume) (allVols : List Volume) (o : Option StrMap) (w : World σ) :
    (attachScaleCreate pk fuel v inVol allVols o w).2.log.countP Call.isCreateNonExist ≤
      w.log.countP Call.isCreateNonExist + (inVol.Spec.Scale - allVols.length) + 1 := by
  unfold attachScaleCreate
  split
  · rename_i hlt
    split
    · rename_i e w1 hc
      refine le_trans (scaleUpLoop_nonExist _ _ _ _ _ _ _ _) ?_
      have hl := vdCreate_eq hc
      simp only [hl, List.countP_append, List.countP_cons, List.countP_nil]
      split <;> omega
    · rename_i id w1 hc
      have hl := vdCreate_eq hc
      split
      · rename_i err w2 hv
        simp [volFromName_eq hv, hl, Call.isCreateNonExist]
      · rename_i outVol w2 hv
        have hl2 := volFromName_eq hv
        split
        · rename_i p w3 ha
          simp [vdAttach_eq ha, hl2, hl, Call.isCreateNonExist]
        · rename_i e w3 ha
          refine le_trans (scaleUpLoop_nonExist _ _ _ _ _ _ _ _) ?_
          simp [vdAttach_eq ha, hl2, hl, Call.isCreateNonExist]
          omega
  · exact le_trans (scaleUpLoop_nonExist _ _ _ _ _ _ _ _) (by omega)

theorem attachScale_nonExist (pk : Pkg) (fuel : Nat) (v : VolumeDriver σ)
    (inVol : Volume) (o : Option StrMap) (w : World σ) :
    (attachScale pk fuel v inVol o w).2.log.countP Call.isCreateNonExist ≤
      w.log.countP Call.isCreateNonExist + inVol.Spec.Scale + 1 := by
  have hloc := attachScaleLocal_countP Call.isCreateNonExist (fun _ _ _ => rfl)
    (fun _ _ _ => rfl) pk v inVol o w
  unfold attachScale
  split
  · rename_i outVol w1 hx
    rw [hx] at hloc
    simp only at hloc ⊢
    omega
  · rename_i w1 hx
    rw [hx] at hloc
    simp only at hloc
    unfold attachScaleAll
    split
    rename_i allVols e w2 he
    have hl := vdEnumerate_eq he
    have hloop := loopTrace_countP Call.isCreateNonExist (fun _ _ _ => rfl)
      (attachExistingLoop_trace v o allVols w2)
    have hw2 : w2.log.countP Call.isCreateNonExist = w1.log.countP Call.isCreateNonExist := by
      simp [hl, Call.isCreateNonExist]
    split
    · rename_i outVol w3 hy
      rw [hy] at hloop
      simp only at hloop ⊢
      omega
    · rename_i w3 hy
      rw [hy] at hloop
      simp only at hloop
      refine le_trans (attachScaleCreate_nonExist _ _ _ _ _ _ _) ?_
      omega

/-- On the driver where every Create collides, each unit of fuel of the
`scaleUp` loop is one more Create call. -/
theorem collide_scaleUpLoop (spec : VolumeSpec) (o : Option StrMap) (fuel : Nat) :
    ∀ (i : Nat) (w : World Unit),
      createCount (scaleUpLoop collide (mkVol "c" 2) spec o fuel i 0 w).2.log =
        createCount w.log + fuel := by
  induction fuel with
  | zero =>
    intro i w
    simp [scaleUpLoop, mkVol]
  | succ n ih =>
    intro i w
    have h : scaleUpLoop collide (mkVol "c" 2) spec o (n + 1) i 0 w =
        scaleUpLoop collide (mkVol "c" 2) spec o n (i + 1) 0
          (vdCreate collide ⟨replicaName "c" i, []⟩ spec w).2 := rfl
    rw [h, ih, vdCreate_log]
    simp [createCount, Call.isCreate]
    omega

/-- C3, refuted: no function of the scale alone bounds the number of Create
attempts of one selection. On a backend that answers every Create with
name-already-exists, a volume of scale 2 gets one more attempt for every
further turn of the loop. -/
theorem create_attempts_not_bounded_by_scale :
    ¬ ∃ f : Nat → Nat, ∀ (v : VolumeDriver Unit) (inVol : Volume) (fuel : Nat),
        createCount (attachScale examplePkg fuel v inVol none w0).2.log ≤
          f inVol.Spec.Scale := by
  rintro ⟨f, hf⟩
  have h := hf collide (mkVol "c" 2) (f 2)
  have h1 : attachScale examplePkg (f 2) collide (mkVol "c" 2) none w0 =
      scaleUpLoop collide (mkVol "c" 2) (scaleUpSpec (mkVol "c" 2)) none (f 2) 0 0
        (vdCreate collide ⟨replicaName "c" 0, []⟩ (localSpec examplePkg (mkVol "c" 2))
          (vdEnumerate collide (allLocator (mkVol "c" 2))
            (vdEnumerate collide (localLocator examplePkg (mkVol "c" 2)) w0).2).2).2 := rfl
  rw [h1, collide_scaleUpLoop] at h
  simp [vdCreate_log, vdEnumerate_log, createCount, Call.isCreate, w0, mkVol] at h

/-- C3, amended. Whatever the backend answers and however long the run is
let go, the Create attempts of one selection that do not fail with
name-already-exists are at most scale + 1; every attempt beyond that is one
that failed with name-already-exists. -/
theorem create_attempts_bounded_up_to_collisions (pk : Pkg) (fuel : Nat)
    (v : VolumeDriver σ) (inVol : Volume) (o : Option StrMap) (w : World σ) :
    createCount (attachScale pk fuel v inVol o w).2.log + createExistCount w.log ≤
      createCount w.log + createExistCount (attachScale pk fuel v inVol o w).2.log +
        (inVol.Spec.Scale + 1) := by
  have h := attachScale_nonExist pk fuel v inVol o w
  rw [createCount_split, createCount_split w.log]
  omega

/-- The `scaleUp` loop only appends to the log. -/
theorem scaleUpLoop_extends (v : VolumeDriver σ) (inVol : Volume) (spec : VolumeSpec)
    (o : Option StrMap) (fuel : Nat) :
    ∀ (i volCount : Nat) (w : World σ),
      ∃ rest, (scaleUpLoop v inVol spec o fuel i volCount w).2.log = w.log ++ rest := by
  induction fuel with
  | zero =>
    intro i volCount w
    unfold scaleUpLoop
    split <;> exact ⟨[], by simp⟩
  | succ n ih =>
    intro i volCount w
    unfold scaleUpLoop
    split
    · split
      · rename_i err w1 hc
        have hl := vdCreate_eq hc
        split
        · obtain ⟨rest, hr⟩ := ih (i + 1) volCount w1
          exact ⟨_, by rw [hr, hl, List.append_assoc]⟩
        · exact ⟨_, hl⟩
      · rename_i id w1 hc
        have hl := vdCreate_eq hc
        split
        · rename_i err w2 hv
          exact ⟨_, by rw [volFromName_eq hv, hl, List.append_assoc]⟩
        · rename_i outVol w2 hv
          have hl2 := volFromName_eq hv
          split
          · rename_i p w3 ha
            exact ⟨_, by rw [vdAttach_eq ha, hl2, hl, List.append_assoc, List.append_assoc]⟩
          · rename_i e w3 ha
            obtain ⟨rest, hr⟩ := ih (i + 1) (volCount + 1) w3
            exact ⟨_, by
              rw [hr, vdAttach_eq ha, hl2, hl, List.append_assoc, List.append_assoc,
                List.append_assoc]⟩
    · exact ⟨[], by simp⟩

/-- The creation part of `attachScale` only appends to the log. -/
theorem attachScaleCreate_extends (pk : Pkg) (fuel : Nat) (v : VolumeDriver σ)
    (inVol : Volume) (allVols : List Volume) (o : Option StrMap) (w : World σ) :
    ∃ rest, (attachScaleCreate pk fuel v inVol allVols o w).2.log = w.log ++ rest := by
  unfold attachScaleCreate scaleUp
  split
  · split
    · rename_i e w1 hc
      obtain ⟨rest, hr⟩ := scaleUpLoop_extends v inVol (scaleUpSpec inVol) o fuel
        allVols.length allVols.length w1
      exact ⟨_, by rw [hr, vdCreate_eq hc, List.append_assoc]⟩
    · rename_i id w1 hc
      have hl := vdCreate_eq hc
      split
      · rename_i err w2 hv
        exact ⟨_, by rw [volFromName_eq hv, hl, List.append_assoc]⟩
      · rename_i outVol w2 hv
        have hl2 := volFromName_eq hv
        split
        · rename_i p w3 ha
          exact ⟨_, by rw [vdAttach_eq ha, hl2, hl, List.append_assoc, List.append_assoc]⟩
        · rename_i e w3 ha
          obtain ⟨rest, hr⟩ := scaleUpLoop_extends v inVol (scaleUpSpec inVol) o fuel
            (allVols ++ [outVol]).length (allVols ++ [outVol]).length w3
          exact ⟨_, by
            rw [hr, vdAttach_eq ha, hl2, hl, List.append_assoc, List.append_assoc,
              List.append_assoc]⟩
  · exact scaleUpLoop_extends v inVol (scaleUpSpec inVol) o fuel _ _ w

/-- The part of `attachScale` from the unfiltered enumeration on starts by
that enumeration and only appends to the log. -/
theorem attachScaleAll_extends (pk : Pkg) (fuel : Nat) (v : VolumeDriver σ)
    (inVol : Volume) (o : Option StrMap) (w : World σ) :
    ∃ allVols e rest, (attachScaleAll pk fuel v inVol o w).2.log =
      w.log ++ Call.Enumerate (allLocator inVol) allVols e :: rest := by
  obtain ⟨allVols, e, _, h⟩ := attachScaleAll_trace pk fuel v inVol o w
  rcases h with ⟨pre, vol, post, fails, p, _, _, _, hlog⟩ | ⟨fails, w3, _, hlog, heq⟩
  · exact ⟨allVols, e, fails ++ [Call.Attach vol.Id o (.ok p)], by rw [hlog]; simp⟩
  · obtain ⟨rest, hr⟩ := attachScaleCreate_extends pk fuel v inVol allVols o w3
    refine ⟨allVols, e, fails ++ rest, ?_⟩
    rw [heq, hr, hlog]
    simp

/-- C4, refuted: the local enumeration fails, yet `attachScale` succeeds
with the replica of the unfiltered enumeration instead of returning the
enumeration error. -/
theorem attachScale_survives_enumerate_error :
    (localEnumFails.Enumerate (localLocator examplePkg (mkVol "c" 2)) w0.st).1.2 =
        some (.other "enumerate failed") ∧
      (attachScale examplePkg 0 localEnumFails (mkVol "c" 2) none w0).1 =
        some (.ok (mkVol "c_000" 1)) :=
  ⟨rfl, rfl⟩

/-- C4, amended. When the local-filtered Enumerate fails, `attachScale` does
not return that error: it tries no local replica, and its next call is the
unfiltered Enumerate, from which it goes on as it does when there is no local
replica. -/
theorem attachScale_local_enumerate_error_skipped (pk : Pkg) (fuel : Nat)
    (v : VolumeDriver σ) (inVol : Volume) (o : Option StrMap) (w : World σ) (err : Error)
    (h : (v.Enumerate (localLocator pk inVol) w.st).1.2 = some err) :
    attachScale pk fuel v inVol o w =
        attachScaleAll pk fuel v inVol o (vdEnumerate v (localLocator pk inVol) w).2 ∧
      ∃ vols allVols e rest, (attachScale pk fuel v inVol o w).2.log =
        w.log ++ Call.Enumerate (localLocator pk inVol) vols (some err) ::
          Call.Enumerate (allLocator inVol) allVols e :: rest := by
  have h1 : attachScale pk fuel v inVol o w =
      attachScaleAll pk fuel v inVol o (vdEnumerate v (localLocator pk inVol) w).2 := by
    rcases hx : vdEnumerate v (localLocator pk inVol) w with ⟨⟨vols, e⟩, w1⟩
    have he : e = some err := by
      have : (vdEnumerate v (localLocator pk inVol) w).1.2 = some err := h
      rw [hx] at this
      exact this
    subst he
    simp only [attachScale, attachScaleLocal, hx]
  refine ⟨h1, ?_⟩
  obtain ⟨allVols, e, rest, hr⟩ := attachScaleAll_extends pk fuel v inVol o
    (vdEnumerate v (localLocator pk inVol) w).2
  refine ⟨(v.Enumerate (localLocator pk inVol) w.st).1.1, allVols, e, rest, ?_⟩
  rw [h1, hr, vdEnumerate_log]
  have h2 : (vdEnumerate v (localLocator pk inVol) w).1.2 = some err := h
  rw [h2]
  simp
  rfl

/-- C4 amended, at an example: the driver whose local enumeration fails. -/
theorem attachScale_local_enumerate_error_skipped_witness :
    attachScale examplePkg 0 localEnumFails (mkVol "c" 2) none w0 =
        attachScaleAll examplePkg 0 localEnumFails (mkVol "c" 2) none
          (vdEnumerate localEnumFails (localLocator examplePkg (mkVol "c" 2)) w0).2 ∧
      ∃ vols allVols e rest,
        (attachScale examplePkg 0 localEnumFails (mkVol "c" 2) none w0).2.log =
          w0.log ++ Call.Enumerate (localLocator examplePkg (mkVol "c" 2)) vols
              (some (.other "enumerate failed")) ::
            Call.Enumerate (allLocator (mkVol "c" 2)) allVols e :: rest :=
  attachScale_local_enumerate_error_skipped examplePkg 0 localEnumFails (mkVol "c" 2)
    none w0 (.other "enumerate failed") rfl

theorem length_eq_zero_iff (s : String) : s.length = 0 ↔ s = "" := by
  constructor
  · intro h
    cases s with
    | mk d =>
      have hd : d = [] := List.length_eq_zero.mp h
      subst hd
      rfl
  · rintro rfl
    rfl

/-- C5, refuted: replica `c_000` is mounted at the path of the scaled volume
`c`; its Unmount succeeds, its Detach fails, and the Mount that should put it
back fails too. Mount answers with the remount error, and the path is left
with nothing mounted: the state is not what it was before the request. -/
theorem mount_remount_can_lose_occupant :
    stuck.MountedAt (mountpath examplePkg "c") "c_000" = "c_000" ∧
      (mount examplePkg 0 (.ok stuck) (mkVol "c" 2).Spec "c" ⟨"c_000", []⟩).1 =
        some (.error (remountError "c" "c_000" (mountpath examplePkg "c"))) ∧
      stuck.MountedAt (mountpath examplePkg "c")
        (mount examplePkg 0 (.ok stuck) (mkVol "c" 2).Spec "c" ⟨"c_000", []⟩).2.st = "" ∧
      (mount examplePkg 0 (.ok stuck) (mkVol "c" 2).Spec "c" ⟨"c_000", []⟩).2.log =
        [Call.VolumeFromName "c" (.ok (mkVol "c" 2)),
         Call.MountedAt "/mnt/c" "c_000",
         Call.Unmount "c_000" "/mnt/c" none none,
         Call.Detach "c_000" none (some (.other "device busy")),
         Call.Mount "c_000" "/mnt/c" none (some (.other "mount failed"))] := by
  refine ⟨rfl, rfl, rfl, ?_⟩
  decide

/-- C5, amended. For a scaled volume on a block driver whose mount path is
occupied by replica A: if Unmount(A) succeeds and Detach(A) then fails, mount
answers with the error that names the volume, A and the mount path; the
calls it issues are exactly the lookup, MountedAt, Unmount(A), Detach(A) and
one Mount(A, path) that tries to put A back, so there is no Attach and no
Create; the result of that Mount is not looked at, and the backend is left
in the state that Mount leaves. -/
theorem mount_remount_detach_failure (pk : Pkg) (fuel : Nat) (v : VolumeDriver σ)
    (spec : VolumeSpec) (name : String) (w : World σ) (vol : Volume) (A : String)
    (err : Error)
    (hv : (v.VolumeFromName name w.st).1 = .ok vol)
    (hs : 1 < vol.Spec.Scale)
    (hb : v.driverType = .DRIVER_TYPE_BLOCK)
    (hA : v.MountedAt (mountpath pk name) (v.VolumeFromName name w.st).2 = A)
    (hne : A ≠ "")
    (hU : (v.Unmount A (mountpath pk name) none (v.VolumeFromName name w.st).2).1 = none)
    (hD : (v.Detach A none
      (v.Unmount A (mountpath pk name) none (v.VolumeFromName name w.st).2).2).1 = some err) :
    (mount pk fuel (.ok v) spec name w).1 =
        some (.error (remountError name A (mountpath pk name))) ∧
      (mount pk fuel (.ok v) spec name w).2.st =
        (v.Mount A (mountpath pk name) none
          (v.Detach A none
            (v.Unmount A (mountpath pk name) none (v.VolumeFromName name w.st).2).2).2).2 ∧
      (mount pk fuel (.ok v) spec name w).2.log =
        w.log ++
          [Call.VolumeFromName name (.ok vol),
           Call.MountedAt (mountpath pk name) A,
           Call.Unmount A (mountpath pk name) none none,
           Call.Detach A none (some err),
           Call.Mount A (mountpath pk name) none
             (v.Mount A (mountpath pk name) none
               (v.Detach A none
                 (v.Unmount A (mountpath pk name) none
                   (v.VolumeFromName name w.st).2).2).2).1] := by
  have hlen : ¬ A.length = 0 := fun h => hne ((length_eq_zero_iff A).mp h)
  simp [mount, mountRelease, volFromName, vdMountedAt, vdUnmount, vdDetach, vdMount,
    hv, hs, hb, hA, hlen, hU, hD]

/-- C5 amended, at the example of the driver on which nothing but Unmount
works. -/
theorem mount_remount_detach_failure_witness :
    (mount examplePkg 0 (.ok stuck) (mkVol "c" 2).Spec "c" ⟨"c_000", []⟩).1 =
        some (.error (remountError "c" "c_000" (mountpath examplePkg "c"))) :=
  (mount_remount_detach_failure examplePkg 0 stuck (mkVol "c" 2).Spec "c" ⟨"c_000", []⟩
    (mkVol "c" 2) "c_000" (.other "device busy") rfl (by decide) rfl rfl (by decide)
    rfl rfl).1

theorem replicaName_zero (base : String) : replicaName base 0 = base ++ "_000" := by
  unfold replicaName
  rw [String.append_assoc]
  rfl

/-- C6, refuted: the replica `c_000` is created but its lookup fails;
`attachScale` returns the lookup error after that one Create, without going
on to the scale-up fallback. -/
theorem attachScale_lookup_failure_is_returned :
    attachScale examplePkg 5 lookupFails (mkVol "c" 2) none w0 =
      (some (.error (.other "lookup failed")),
       ⟨(), [Call.Enumerate (localLocator examplePkg (mkVol "c" 2)) [] none,
             Call.Enumerate (allLocator (mkVol "c" 2)) [] none,
             Call.Create ⟨"c_000", []⟩ (localSpec examplePkg (mkVol "c" 2)) (.ok "c_000"),
             Call.VolumeFromName "c_000" (.error (.other "lookup failed"))]⟩) := by
  rfl

/-- C6, amended. When no local replica attaches, the unfiltered enumeration
returns `allVols` with fewer entries than the scale, and none of them
attaches, `attachScale` issues a Create for the name base_{m:03}, m being the
length of `allVols`, with a copy of the spec whose scale is 1 and whose
replica set is the local node. If the Create fails, with name-already-exists
or anything else, the run continues as `scaleUp` on `allVols`. If the lookup
of the created replica fails, that error is returned and nothing more is
called. If the created replica attaches it is the result. If it does not
attach, the run continues as `scaleUp` on `allVols` with the new replica
appended. -/
theorem attachScale_step3 (pk : Pkg) (fuel : Nat) (v : VolumeDriver σ) (inVol : Volume)
    (o : Option StrMap) (w w1 w2 w3 : World σ) (allVols : List Volume) (e : Option Error)
    (hlocal : attachScaleLocal pk v inVol o w = (none, w1))
    (henum : vdEnumerate v (allLocator inVol) w1 = ((allVols, e), w2))
    (hnone : attachExistingLoop v o allVols w2 = (none, w3))
    (hlt : allVols.length < inVol.Spec.Scale) :
    (localSpec pk inVol).Scale = 1 ∧
    (localSpec pk inVol).ReplicaSet = some ⟨[pk.LocalNode]⟩ ∧
    (localSpec pk inVol).Passphrase = inVol.Spec.Passphrase ∧
    (localSpec pk inVol).Rest = inVol.Spec.Rest ∧
    replicaName inVol.Locator.Name 0 = inVol.Locator.Name ++ "_000" ∧
    (∃ rest, (attachScale pk fuel v inVol o w).2.log =
      w3.log ++ Call.Create ⟨replicaName inVol.Locator.Name allVols.length, []⟩
        (localSpec pk inVol)
        (v.Create ⟨replicaName inVol.Locator.Name allVols.length, []⟩
          (localSpec pk inVol) w3.st).1 :: rest) ∧
    (∀ err w4,
      vdCreate v ⟨replicaName inVol.Locator.Name allVols.length, []⟩
        (localSpec pk inVol) w3 = (.error err, w4) →
      attachScale pk fuel v inVol o w = scaleUp fuel v inVol allVols o w4) ∧
    (∀ id w4 err w5,
      vdCreate v ⟨replicaName inVol.Locator.Name allVols.length, []⟩
        (localSpec pk inVol) w3 = (.ok id, w4) →
      volFromName v id w4 = (.error err, w5) →
      attachScale pk fuel v inVol o w = (some (.error err), w5)) ∧
    (∀ id w4 outVol w5 p w6,
      vdCreate v ⟨replicaName inVol.Locator.Name allVols.length, []⟩
        (localSpec pk inVol) w3 = (.ok id, w4) →
      volFromName v id w4 = (.ok outVol, w5) →
      vdAttach v outVol.Id o w5 = (.ok p, w6) →
      attachScale pk fuel v inVol o w = (some (.ok outVol), w6)) ∧
    (∀ id w4 outVol w5 err w6,
      vdCreate v ⟨replicaName inVol.Locator.Name allVols.length, []⟩
        (localSpec pk inVol) w3 = (.ok id, w4) →
      volFromName v id w4 = (.ok outVol, w5) →
      vdAttach v outVol.Id o w5 = (.error err, w6) →
      attachScale pk fuel v inVol o w =
        scaleUp fuel v inVol (allVols ++ [outVol]) o w6) := by
  have h0 : attachScale pk fuel v inVol o w =
      attachScaleCreate pk fuel v inVol allVols o w3 := by
    simp only [attachScale, hlocal, attachScaleAll, henum, hnone]
  refine ⟨rfl, rfl, rfl, rfl, replicaName_zero _, ?_, ?_, ?_, ?_, ?_⟩
  · obtain ⟨rest, hr⟩ : ∃ rest,
        (attachScaleCreate pk fuel v inVol allVols o w3).2.log =
          (vdCreate v ⟨replicaName inVol.Locator.Name allVols.length, []⟩
            (localSpec pk inVol) w3).2.log ++ rest := by
      unfold attachScaleCreate scaleUp
      rw [if_pos hlt]
      split
      · rename_i err w4 hc
        rw [hc]
        exact scaleUpLoop_extends v inVol _ o fuel _ _ w4
      · rename_i id w4 hc
        rw [hc]
        split
        · rename_i err w5 hv
          exact ⟨_, volFromName_eq hv⟩
        · rename_i outVol w5 hv
          split
          · rename_i p w6 ha
            exact ⟨_, by rw [vdAttach_eq ha, volFromName_eq hv, List.append_assoc]⟩
          · rename_i err w6 ha
            obtain ⟨rest, hr⟩ := scaleUpLoop_extends v inVol (scaleUpSpec inVol) o fuel
              (allVols ++ [outVol]).length (allVols ++ [outVol]).length w6
            exact ⟨_, by
              rw [hr, vdAttach_eq ha, volFromName_eq hv, List.append_assoc,
                List.append_assoc]⟩
    refine ⟨rest, ?_⟩
    rw [h0, hr, vdCreate_log]
    simp
    rfl
  · intro err w4 hc
    rw [h0]
    unfold attachScaleCreate
    rw [if_pos hlt, hc]
  · intro id w4 err w5 hc hv
    rw [h0]
    unfold attachScaleCreate
    rw [if_pos hlt, hc]
    simp only [hv]
  · intro id w4 outVol w5 p w6 hc hv ha
    rw [h0]
    unfold attachScaleCreate
    rw [if_pos hlt, hc]
    simp only [hv, ha]
  · intro id w4 outVol w5 err w6 hc hv ha
    rw [h0]
    unfold attachScaleCreate
    rw [if_pos hlt, hc]
    simp only [hv, ha]

/-- C6 amended, at an example: scale 2 and no replica; `c_000` is created
on the local node, attaches, and is the result. -/
theorem attachScale_step3_witness :
    attachScale examplePkg 0 fresh (mkVol "c" 2) none w0 =
      (some (.ok (mkVol "c_000" 1)),
       ⟨(), [Call.Enumerate (localLocator examplePkg (mkVol "c" 2)) [] none,
             Call.Enumerate (allLocator (mkVol "c" 2)) [] none,
             Call.Create ⟨"c_000", []⟩ ⟨1, some ⟨["LocalNode"]⟩, "", ""⟩ (.ok "c_000"),
             Call.VolumeFromName "c_000" (.ok (mkVol "c_000" 1)),
             Call.Attach "c_000" none (.ok "/dev/c")]⟩) :=
  (attachScale_step3 examplePkg 0 fresh (mkVol "c" 2) none w0
    ⟨(), [Call.Enumerate (localLocator examplePkg (mkVol "c" 2)) [] none]⟩
    ⟨(), [Call.Enumerate (localLocator examplePkg (mkVol "c" 2)) [] none,
          Call.Enumerate (allLocator (mkVol "c" 2)) [] none]⟩
    ⟨(), [Call.Enumerate (localLocator examplePkg (mkVol "c" 2)) [] none,
          Call.Enumerate (allLocator (mkVol "c" 2)) [] none]⟩
    [] none rfl rfl rfl (by decide)).2.2.2.2.2.2.2.2.1 "c_000" _ (mkVol "c_000" 1) _
      "/dev/c" _ rfl rfl rfl

/-- With fuel left and room under the scale, the first call of the `scaleUp`
loop is the Create for the current index. -/
theorem scaleUpLoop_first_call (v : VolumeDriver σ) (inVol : Volume) (spec : VolumeSpec)
    (o : Option StrMap) (fuel i volCount : Nat) (w : World σ)
    (hlt : volCount < inVol.Spec.Scale) :
    ∃ rest, (scaleUpLoop v inVol spec o (fuel + 1) i volCount w).2.log =
      w.log ++ Call.Create ⟨replicaName inVol.Locator.Name i, []⟩ spec
        (v.Create ⟨replicaName inVol.Locator.Name i, []⟩ spec w.st).1 :: rest := by
  have key : ∃ rest, (scaleUpLoop v inVol spec o (fuel + 1) i volCount w).2.log =
      (vdCreate v ⟨replicaName inVol.Locator.Name i, []⟩ spec w).2.log ++ rest := by
    unfold scaleUpLoop
    rw [if_pos hlt]
    split
    · rename_i err w1 hc
      rw [hc]
      split
      · exact scaleUpLoop_extends v inVol spec o fuel _ _ w1
      · exact ⟨[], by simp⟩
    · rename_i id w1 hc
      rw [hc]
      split
      · rename_i err w2 hv
        exact ⟨_, volFromName_eq hv⟩
      · rename_i outVol w2 hv
        split
        · rename_i p w3 ha
          exact ⟨_, by rw [vdAttach_eq ha, volFromName_eq hv, List.append_assoc]⟩
        · rename_i err w3 ha
          obtain ⟨rest, hr⟩ := scaleUpLoop_extends v inVol spec o fuel (i + 1)
            (volCount + 1) w3
          exact ⟨_, by
            rw [hr, vdAttach_eq ha, volFromName_eq hv, List.append_assoc,
              List.append_assoc]⟩
  obtain ⟨rest, hr⟩ := key
  refine ⟨rest, ?_⟩
  rw [hr, vdCreate_log]
  simp
  rfl

/-- An error returned by the `scaleUp` loop is the scale-exhausted error, or
the error of the lookup it just made, or the error of the Create it just
made, and then not ErrExist. -/
theorem scaleUpLoop_error (v : VolumeDriver σ) (inVol : Volume) (spec : VolumeSpec)
    (o : Option StrMap) (fuel : Nat) :
    ∀ (i volCount : Nat) (w : World σ) (e : Error),
      (scaleUpLoop v inVol spec o fuel i volCount w).1 = some (.error e) →
      e = .ErrVolAttachedScale ∨
      (∃ name, (scaleUpLoop v inVol spec o fuel i volCount w).2.log.getLast? =
        some (Call.VolumeFromName name (.error e))) ∨
      (∃ l s, (scaleUpLoop v inVol spec o fuel i volCount w).2.log.getLast? =
        some (Call.Create l s (.error e)) ∧ e ≠ .ErrExist) := by
  induction fuel with
  | zero =>
    intro i volCount w e
    unfold scaleUpLoop
    split <;> simp
    intro h
    exact Or.inl h.symm
  | succ n ih =>
    intro i volCount w e
    unfold scaleUpLoop
    split
    · split
      · rename_i err w1 hc
        split
        · exact ih _ _ _ _
        · rename_i hne
          intro h
          simp only [Option.some.injEq, Except.error.injEq] at h
          subst h
          right
          right
          exact ⟨⟨replicaName inVol.Locator.Name i, []⟩, spec, by simp [vdCreate_eq hc], hne⟩
      · rename_i id w1 hc
        split
        · rename_i err w2 hv
          intro h
          simp only [Option.some.injEq, Except.error.injEq] at h
          subst h
          right
          left
          exact ⟨id, by simp [volFromName_eq hv]⟩
        · rename_i outVol w2 hv
          split
          · intro h
            simp at h
          · exact ih _ _ _ _
    · intro h
      simp only [Option.some.injEq, Except.error.injEq] at h
      exact Or.inl h.symm

/-- The same for the creation part of `attachScale`. -/
theorem attachScaleCreate_error (pk : Pkg) (fuel : Nat) (v : VolumeDriver σ)
    (inVol : Volume) (allVols : List Volume) (o : Option StrMap) (w : World σ) (e : Error)
    (h : (attachScaleCreate pk fuel v inVol allVols o w).1 = some (.error e)) :
    e = .ErrVolAttachedScale ∨
    (∃ name, (attachScaleCreate pk fuel v inVol allVols o w).2.log.getLast? =
      some (Call.VolumeFromName name (.error e))) ∨
    (∃ l s, (attachScaleCreate pk fuel v inVol allVols o w).2.log.getLast? =
      some (Call.Create l s (.error e)) ∧ e ≠ .ErrExist) := by
  revert h
  unfold attachScaleCreate scaleUp
  split
  · split
    · exact scaleUpLoop_error v inVol _ o fuel _ _ _ e
    · rename_i id w1 hc
      split
      · rename_i err w2 hv
        intro h
        simp only [Option.some.injEq, Except.error.injEq] at h
        subst h
        right
        left
        exact ⟨id, by simp [volFromName_eq hv]⟩
      · rename_i outVol w2 hv
        split
        · intro h
          simp at h
        · exact scaleUpLoop_error v inVol _ o fuel _ _ _ e
  · exact scaleUpLoop_error v inVol _ o fuel _ _ _ e

/-- The same for `attachScale`. -/
theorem attachScale_error (pk : Pkg) (fuel : Nat) (v : VolumeDriver σ)
    (inVol : Volume) (o : Option StrMap) (w : World σ) (e : Error)
    (h : (attachScale pk fuel v inVol o w).1 = some (.error e)) :
    e = .ErrVolAttachedScale ∨
    (∃ name, (attachScale pk fuel v inVol o w).2.log.getLast? =
      some (Call.VolumeFromName name (.error e))) ∨
    (∃ l s, (attachScale pk fuel v inVol o w).2.log.getLast? =
      some (Call.Create l s (.error e)) ∧ e ≠ .ErrExist) := by
  revert h
  unfold attachScale
  split
  · intro h
    simp at h
  · unfold attachScaleAll
    split
    split
    · intro h
      simp at h
    · exact attachScaleCreate_error pk fuel v inVol _ o _ e

/-- C7, refuted: scale 2, no replica, and every Create collides. The Create
of `c_000` issued by `attachScale` fails with ErrExist, and the next Create,
the first one of `scaleUp`, is for `c_000` again, not for `c_001`. -/
theorem attachScale_collision_retries_same_index :
    (attachScale examplePkg 2 collide (mkVol "c" 2) none w0).2.log =
      [Call.Enumerate (localLocator examplePkg (mkVol "c" 2)) [] none,
       Call.Enumerate (allLocator (mkVol "c" 2)) [] none,
       Call.Create ⟨"c_000", []⟩ (localSpec examplePkg (mkVol "c" 2)) (.error .ErrExist),
       Call.Create ⟨"c_000", []⟩ (scaleUpSpec (mkVol "c" 2)) (.error .ErrExist),
       Call.Create ⟨"c_001", []⟩ (scaleUpSpec (mkVol "c" 2)) (.error .ErrExist)] := by
  rfl

/-- C7, amended. (1) In the `scaleUp` loop, at any index i with room under
the scale, a Create of base_{i:03} that fails with ErrExist is followed at
once by the Create of base_{i+1:03}. (2) The Create that `attachScale` issues
itself, for base_{m:03}, when it fails with ErrExist or any other error, is
followed at once by the first Create of `scaleUp`, which is for the same name
base_{m:03}, with the spec of `scaleUp`. (3) An error returned by
`attachScale` is the scale-exhausted error, or the error of the lookup made
last, or the error of the Create made last and then not ErrExist: the
ErrExist of a Create is never returned. -/
theorem create_collision_retry (pk : Pkg) (v : VolumeDriver σ) (inVol : Volume)
    (o : Option StrMap) :
    (∀ (fuel i volCount : Nat) (w : World σ),
      volCount < inVol.Spec.Scale →
      (v.Create ⟨replicaName inVol.Locator.Name i, []⟩ (scaleUpSpec inVol) w.st).1 =
        .error .ErrExist →
      ∃ r rest,
        (scaleUpLoop v inVol (scaleUpSpec inVol) o (fuel + 2) i volCount w).2.log =
          w.log ++
            Call.Create ⟨replicaName inVol.Locator.Name i, []⟩ (scaleUpSpec inVol)
              (.error .ErrExist) ::
            Call.Create ⟨replicaName inVol.Locator.Name (i + 1), []⟩ (scaleUpSpec inVol)
              r :: rest) ∧
    (∀ (fuel : Nat) (allVols : List Volume) (w : World σ) (err : Error),
      allVols.length < inVol.Spec.Scale →
      (v.Create ⟨replicaName inVol.Locator.Name allVols.length, []⟩
        (localSpec pk inVol) w.st).1 = .error err →
      ∃ r rest,
        (attachScaleCreate pk (fuel + 1) v inVol allVols o w).2.log =
          w.log ++
            Call.Create ⟨replicaName inVol.Locator.Name allVols.length, []⟩
              (localSpec pk inVol) (.error err) ::
            Call.Create ⟨replicaName inVol.Locator.Name allVols.length, []⟩
              (scaleUpSpec inVol) r :: rest) ∧
    (∀ (fuel : Nat) (w : World σ) (e : Error),
      (attachScale pk fuel v inVol o w).1 = some (.error e) →
      e = .ErrVolAttachedScale ∨
      (∃ name, (attachScale pk fuel v inVol o w).2.log.getLast? =
        some (Call.VolumeFromName name (.error e))) ∨
      (∃ l s, (attachScale pk fuel v inVol o w).2.log.getLast? =
        some (Call.Create l s (.error e)) ∧ e ≠ .ErrExist)) := by
  refine ⟨?_, ?_, ?_⟩
  · intro fuel i volCount w hlt hc
    have hc1 : vdCreate v ⟨replicaName inVol.Locator.Name i, []⟩ (scaleUpSpec inVol) w =
        (.error .ErrExist,
          (vdCreate v ⟨replicaName inVol.Locator.Name i, []⟩ (scaleUpSpec inVol) w).2) := by
      have : (vdCreate v ⟨replicaName inVol.Locator.Name i, []⟩ (scaleUpSpec inVol) w).1 =
          .error .ErrExist := hc
      rw [← this]
    have hstep : scaleUpLoop v inVol (scaleUpSpec inVol) o (fuel + 2) i volCount w =
        scaleUpLoop v inVol (scaleUpSpec inVol) o (fuel + 1) (i + 1) volCount
          (vdCreate v ⟨replicaName inVol.Locator.Name i, []⟩ (scaleUpSpec inVol) w).2 := by
      conv_lhs => unfold scaleUpLoop
      rw [if_pos hlt, hc1]
      simp
    obtain ⟨rest, hr⟩ := scaleUpLoop_first_call v inVol (scaleUpSpec inVol) o fuel (i + 1)
      volCount (vdCreate v ⟨replicaName inVol.Locator.Name i, []⟩ (scaleUpSpec inVol) w).2 hlt
    refine ⟨(v.Create ⟨replicaName inVol.Locator.Name (i + 1), []⟩ (scaleUpSpec inVol)
      (vdCreate v ⟨replicaName inVol.Locator.Name i, []⟩ (scaleUpSpec inVol) w).2.st).1,
      rest, ?_⟩
    rw [hstep, hr, vdCreate_eq hc1]
    simp
  · intro fuel allVols w err hlt hc
    have hc1 : vdCreate v ⟨replicaName inVol.Locator.Name allVols.length, []⟩
        (localSpec pk inVol) w =
        (.error err,
          (vdCreate v ⟨replicaName inVol.Locator.Name allVols.length, []⟩
            (localSpec pk inVol) w).2) := by
      have : (vdCreate v ⟨replicaName inVol.Locator.Name allVols.length, []⟩
          (localSpec pk inVol) w).1 = .error err := hc
      rw [← this]
    have hstep : attachScaleCreate pk (fuel + 1) v inVol allVols o w =
        scaleUpLoop v inVol (scaleUpSpec inVol) o (fuel + 1) allVols.length allVols.length
          (vdCreate v ⟨replicaName inVol.Locator.Name allVols.length, []⟩
            (localSpec pk inVol) w).2 := by
      unfold attachScaleCreate scaleUp
      rw [if_pos hlt, hc1]
    obtain ⟨rest, hr⟩ := scaleUpLoop_first_call v inVol (scaleUpSpec inVol) o fuel
      allVols.length allVols.length
      (vdCreate v ⟨replicaName inVol.Locator.Name allVols.length, []⟩
        (localSpec pk inVol) w).2 hlt
    refine ⟨(v.Create ⟨replicaName inVol.Locator.Name allVols.length, []⟩ (scaleUpSpec inVol)
      (vdCreate v ⟨replicaName inVol.Locator.Name allVols.length, []⟩
        (localSpec pk inVol) w).2.st).1, rest, ?_⟩
    rw [hstep, hr, vdCreate_eq hc1]
    simp
  · intro fuel w e h
    exact attachScale_error pk fuel v inVol o w e h

/-- C7 amended, at an example: on the driver where every Create collides,
the loop at index 0 issues Create `c_000` and then Create `c_001`. -/
theorem create_collision_retry_witness :
    ∃ r rest,
      (scaleUpLoop collide (mkVol "c" 2) (scaleUpSpec (mkVol "c" 2)) none (0 + 2) 0 0
          w0).2.log =
        w0.log ++
          Call.Create ⟨replicaName (mkVol "c" 2).Locator.Name 0, []⟩
            (scaleUpSpec (mkVol "c" 2)) (.error .ErrExist) ::
          Call.Create ⟨replicaName (mkVol "c" 2).Locator.Name (0 + 1), []⟩
            (scaleUpSpec (mkVol "c" 2)) r :: rest :=
  (create_collision_retry examplePkg collide (mkVol "c" 2) none).1 0 0 0 w0
    (by decide) rfl

/-- C9. When mount succeeds, the path it returns is
`path.Join(volume.MountBase, name)` for the logical name of the request,
whatever replica was selected or created; and the last two calls are
`os.MkdirAll` of that path and the backend Mount, at that path, of the id of
the volume the attach phase returned: the result of `attachScale` for a
scaled volume on a block driver, the looked-up volume itself otherwise. -/
theorem mount_success_path (pk : Pkg) (fuel : Nat) (get : Except Error (VolumeDriver σ))
    (spec : VolumeSpec) (name : String) (w : World σ) (p : String)
    (h : (mount pk fuel get spec name w).1 = some (.ok p)) :
    p = pk.Join pk.MountBase name ∧
    ∃ v vol w1 w2 outVol w3,
      get = .ok v ∧
      volFromName v name w = (.ok vol, w1) ∧
      mountRelease v name vol p w1 = (none, w2) ∧
      mountAttach pk fuel v vol (attachOptionsFromSpec pk spec) w2 = (some (.ok outVol), w3) ∧
      (v.driverType = .DRIVER_TYPE_BLOCK → vol.Scaled = true →
        attachScale pk fuel v vol (attachOptionsFromSpec pk spec) w2 =
          (some (.ok outVol), w3)) ∧
      (vol.Scaled = false → outVol = vol) ∧
      (v.driverType ≠ .DRIVER_TYPE_BLOCK → outVol = vol ∧ w3 = w2) ∧
      (mount pk fuel get spec name w).2.log =
        w3.log ++ [Call.MkdirAll p, Call.Mount outVol.Id p none none] := by
  unfold mount at h ⊢
  split at h
  · simp at h
  · rename_i v
    split at h
    · simp at h
    · rename_i vol w1 hv
      split at h
      · simp at h
      · rename_i w2 hrel
        split at h
        · simp at h
        · simp at h
        · rename_i outVol w3 hatt
          split at h
          · simp at h
          · rename_i w4 hm
            simp only [Option.some.injEq, Except.ok.injEq] at h
            subst h
            refine ⟨rfl, v, vol, w1, w2, outVol, w3, rfl, hv, hrel, hatt, ?_, ?_, ?_, ?_⟩
            · intro hb hs
              simpa [mountAttach, hb, hs] using hatt
            · intro hs
              by_cases hb : v.driverType = .DRIVER_TYPE_BLOCK
              · have hvol := attachVol_vol v vol (attachOptionsFromSpec pk spec) w2
                simp only [mountAttach, hb, hs, if_true, Bool.false_eq_true, if_false] at hatt
                split at hatt
                · rename_i x w5 ha
                  rw [ha] at hvol
                  simp only [Prod.mk.injEq, Option.some.injEq, Except.ok.injEq] at hatt hvol
                  rw [← hatt.1, hvol]
                · simp at hatt
              · simp only [mountAttach, hb, if_false, Prod.mk.injEq, Option.some.injEq,
                  Except.ok.injEq] at hatt
                exact hatt.1.symm
            · intro hb
              simp only [mountAttach, hb, if_false, Prod.mk.injEq, Option.some.injEq,
                Except.ok.injEq] at hatt
              exact ⟨hatt.1.symm, hatt.2.symm⟩
            · simp only [hv, hrel, hatt, hm]
              have hl : w4.log = (osMkdirAll (mountpath pk name) w3).log ++
                  [Call.Mount outVol.Id (mountpath pk name) none none] := by
                have h1 : (vdMount v outVol.Id (mountpath pk name) none
                    (osMkdirAll (mountpath pk name) w3)).2.log =
                    (osMkdirAll (mountpath pk name) w3).log ++
                      [Call.Mount outVol.Id (mountpath pk name) none
                        (vdMount v outVol.Id (mountpath pk name) none
                          (osMkdirAll (mountpath pk name) w3)).1] := rfl
                rw [hm] at h1
                exact h1
              rw [hl]
              simp [osMkdirAll]

/-- C9, at an example: mounting the scaled volume `c` creates and attaches
the replica `c_000`, mounts that replica, and returns the path of `c`. -/
theorem mount_success_path_witness :
    "/mnt/c" = examplePkg.Join examplePkg.MountBase "c" ∧
      (mount examplePkg 0 (.ok freshScaled) (mkVol "c" 2).Spec "c" w0).2.log =
        [Call.VolumeFromName "c" (.ok (mkVol "c" 2)),
         Call.MountedAt "/mnt/c" "",
         Call.Enumerate (localLocator examplePkg (mkVol "c" 2)) [] none,
         Call.Enumerate (allLocator (mkVol "c" 2)) [] none,
         Call.Create ⟨"c_000", []⟩ (localSpec examplePkg (mkVol "c" 2)) (.ok "c_000"),
         Call.VolumeFromName "c_000" (.ok (mkVol "c_000" 1)),
         Call.Attach "c_000" none (.ok "/dev/c"),
         Call.MkdirAll "/mnt/c",
         Call.Mount "c_000" "/mnt/c" none none] :=
  ⟨(mount_success_path examplePkg 0 (.ok freshScaled) (mkVol "c" 2).Spec "c" w0 "/mnt/c"
      rfl).1, by decide⟩

/-- What lines 747-762 of unmount do: the outcome is that of the Unmount,
which carries the delete-after-unmount option; a Detach follows only a
successful Unmount on a block driver, and its result is dropped. -/
theorem unmountId_spec (pk : Pkg) (v : VolumeDriver σ) (id mountpoint : String)
    (w : World σ) :
    (unmountId pk v id mountpoint w).1 =
        (v.Unmount id mountpoint (some [(pk.OptionsDeleteAfterUnmount, "true")]) w.st).1 ∧
      (unmountId pk v id mountpoint w).2.log =
        w.log ++
          Call.Unmount id mountpoint (some [(pk.OptionsDeleteAfterUnmount, "true")])
            (v.Unmount id mountpoint
              (some [(pk.OptionsDeleteAfterUnmount, "true")]) w.st).1 ::
          (if (v.Unmount id mountpoint
                (some [(pk.OptionsDeleteAfterUnmount, "true")]) w.st).1 = none ∧
              v.driverType = .DRIVER_TYPE_BLOCK then
            [Call.Detach id none
              (v.Detach id none
                (v.Unmount id mountpoint
                  (some [(pk.OptionsDeleteAfterUnmount, "true")]) w.st).2).1]
          else []) := by
  unfold unmountId
  cases hu : (v.Unmount id mountpoint (some [(pk.OptionsDeleteAfterUnmount, "true")])
      w.st).1 with
  | some err => simp [vdUnmount, hu]
  | none =>
    by_cases hb : v.driverType = .DRIVER_TYPE_BLOCK
    · simp [vdUnmount, vdDetach, hu, hb]
    · simp [vdUnmount, hu, hb]

/-- C10. For a logical volume that resolves to `vol`: unmount fails exactly
when the volume is scaled and MountedAt of its mount path is empty, or the
backend Unmount of the resolved id fails. In the first case it issues the
lookup and MountedAt and nothing else. Otherwise the resolved id is MountedAt
of the mount path for a scaled volume and the id of `vol` for an unscaled
one; the Unmount of that id carries the delete-after-unmount option; the
outcome of unmount is the outcome of that Unmount; and the Detach that
follows a successful Unmount on a block driver has no influence on it. -/
theorem unmount_outcome (pk : Pkg) (v : VolumeDriver σ) (name : String) (w : World σ)
    (vol : Volume) (hv : (v.VolumeFromName name w.st).1 = .ok vol) :
    ((unmount pk (.ok v) name w).1 ≠ none ↔
      (1 < vol.Spec.Scale ∧
        v.MountedAt (mountpath pk name) (v.VolumeFromName name w.st).2 = "") ∨
      (v.Unmount
        (if 1 < vol.Spec.Scale then
          v.MountedAt (mountpath pk name) (v.VolumeFromName name w.st).2
         else vol.Id)
        (mountpath pk name) (some [(pk.OptionsDeleteAfterUnmount, "true")])
        (v.VolumeFromName name w.st).2).1 ≠ none) ∧
    (1 < vol.Spec.Scale →
      v.MountedAt (mountpath pk name) (v.VolumeFromName name w.st).2 = "" →
      (unmount pk (.ok v) name w).1 =
          some (.other ("Failed to find volume mapping for " ++ mountpath pk name)) ∧
        (unmount pk (.ok v) name w).2.st = (v.VolumeFromName name w.st).2 ∧
        (unmount pk (.ok v) name w).2.log =
          w.log ++ [Call.VolumeFromName name (.ok vol),
            Call.MountedAt (mountpath pk name) ""]) ∧
    (1 < vol.Spec.Scale →
      v.MountedAt (mountpath pk name) (v.VolumeFromName name w.st).2 ≠ "" →
      unmount pk (.ok v) name w =
        unmountId pk v (v.MountedAt (mountpath pk name) (v.VolumeFromName name w.st).2)
          (mountpath pk name) (vdMountedAt v (mountpath pk name) (volFromName v name w).2).2) ∧
    (¬ 1 < vol.Spec.Scale →
      unmount pk (.ok v) name w =
        unmountId pk v vol.Id (mountpath pk name) (volFromName v name w).2) ∧
    (∀ (id : String) (w1 : World σ),
      (unmountId pk v id (mountpath pk name) w1).1 =
          (v.Unmount id (mountpath pk name)
            (some [(pk.OptionsDeleteAfterUnmount, "true")]) w1.st).1 ∧
        (unmountId pk v id (mountpath pk name) w1).2.log =
          w1.log ++
            Call.Unmount id (mountpath pk name)
              (some [(pk.OptionsDeleteAfterUnmount, "true")])
              (v.Unmount id (mountpath pk name)
                (some [(pk.OptionsDeleteAfterUnmount, "true")]) w1.st).1 ::
            (if (v.Unmount id (mountpath pk name)
                  (some [(pk.OptionsDeleteAfterUnmount, "true")]) w1.st).1 = none ∧
                v.driverType = .DRIVER_TYPE_BLOCK then
              [Call.Detach id none
                (v.Detach id none
                  (v.Unmount id (mountpath pk name)
                    (some [(pk.OptionsDeleteAfterUnmount, "true")]) w1.st).2).1]
            else [])) := by
  have hst : (volFromName v name w).2.st = (v.VolumeFromName name w.st).2 := rfl
  have hlog : (volFromName v name w).2.log =
      w.log ++ [Call.VolumeFromName name (.ok vol)] := by
    rw [volFromName_log]
    have : (volFromName v name w).1 = .ok vol := hv
    rw [this]
  have hA : 1 < vol.Spec.Scale →
      v.MountedAt (mountpath pk name) (v.VolumeFromName name w.st).2 = "" →
      unmount pk (.ok v) name w =
        (some (.other ("Failed to find volume mapping for " ++ mountpath pk name)),
          (vdMountedAt v (mountpath pk name) (volFromName v name w).2).2) := by
    intro hs he
    simp [unmount, volFromName, vdMountedAt, hv, hs, he]
  have hB : 1 < vol.Spec.Scale →
      v.MountedAt (mountpath pk name) (v.VolumeFromName name w.st).2 ≠ "" →
      unmount pk (.ok v) name w =
        unmountId pk v (v.MountedAt (mountpath pk name) (v.VolumeFromName name w.st).2)
          (mountpath pk name)
          (vdMountedAt v (mountpath pk name) (volFromName v name w).2).2 := by
    intro hs hne
    have hlen : ¬ (v.MountedAt (mountpath pk name) (v.VolumeFromName name w.st).2).length = 0 :=
      fun h => hne ((length_eq_zero_iff _).mp h)
    simp [unmount, volFromName, vdMountedAt, hv, hs, hlen]
  have hC : ¬ 1 < vol.Spec.Scale →
      unmount pk (.ok v) name w =
        unmountId pk v vol.Id (mountpath pk name) (volFromName v name w).2 := by
    intro hs
    simp [unmount, volFromName, hv, hs]
  refine ⟨?_, ?_, hB, hC, fun id w1 => unmountId_spec pk v id (mountpath pk name) w1⟩
  · by_cases hs : 1 < vol.Spec.Scale
    · by_cases he : v.MountedAt (mountpath pk name) (v.VolumeFromName name w.st).2 = ""
      · rw [hA hs he]
        simp [hs, he]
      · rw [hB hs he, (unmountId_spec pk v _ _ _).1]
        simp [hs, he, vdMountedAt, hst]
    · rw [hC hs, (unmountId_spec pk v _ _ _).1]
      simp [hs, hst]
  · intro hs he
    rw [hA hs he]
    refine ⟨rfl, ?_, ?_⟩
    · simp [vdMountedAt, hst]
    · simp [vdMountedAt, hst, hlog, he]

/-- C10, at an example: on the driver where Detach always fails, unmounting
the scaled volume `c`, whose path holds `c_000`, unmounts `c_000` with the
delete-after-unmount option, detaches it in vain, and succeeds. -/
theorem unmount_outcome_witness :
    unmount examplePkg (.ok stuck) "c" ⟨"c_000", []⟩ =
      (none, ⟨"", [Call.VolumeFromName "c" (.ok (mkVol "c" 2)),
        Call.MountedAt "/mnt/c" "c_000",
        Call.Unmount "c_000" "/mnt/c" (some [("DELETE_AFTER_UNMOUNT", "true")]) none,
        Call.Detach "c_000" none (some (.other "device busy"))]⟩) :=
  ((unmount_outcome examplePkg stuck "c" ⟨"c_000", []⟩ (mkVol "c" 2) rfl).2.2.1
    (by decide) (by decide)).trans rfl

/-- C13. `attachOptionsFromSpec` is a function of the passphrase alone: an
empty passphrase gives no options (nil), a non-empty one gives the map with
the single entry `options.OptionsSecret` mapped to the passphrase, and two
specs with the same passphrase give equal options. -/
theorem attachOptionsFromSpec_by_passphrase (pk : Pkg) :
    (∀ spec : VolumeSpec, spec.Passphrase = "" → attachOptionsFromSpec pk spec = none) ∧
    (∀ spec : VolumeSpec, spec.Passphrase ≠ "" →
      attachOptionsFromSpec pk spec = some [(pk.OptionsSecret, spec.Passphrase)]) ∧
    (∀ s1 s2 : VolumeSpec, s1.Passphrase = s2.Passphrase →
      attachOptionsFromSpec pk s1 = attachOptionsFromSpec pk s2) := by
  refine ⟨?_, ?_, ?_⟩
  · intro spec h
    simp [attachOptionsFromSpec, h]
  · intro spec h
    simp [attachOptionsFromSpec, h]
  · intro s1 s2 h
    simp [attachOptionsFromSpec, h]

/-- C13, at an example: the passphrase `hunter2` gives the one-entry map, and
a spec that differs in scale and replica set gives the same options. -/
theorem attachOptionsFromSpec_by_passphrase_witness :
    attachOptionsFromSpec examplePkg ⟨1, none, "hunter2", ""⟩ =
        some [("SECRET_KEY", "hunter2")] ∧
      attachOptionsFromSpec examplePkg ⟨1, none, "hunter2", ""⟩ =
        attachOptionsFromSpec examplePkg ⟨3, some ⟨["n1"]⟩, "hunter2", "x"⟩ :=
  ⟨(attachOptionsFromSpec_by_passphrase examplePkg).2.1 ⟨1, none, "hunter2", ""⟩
      (by decide),
   (attachOptionsFromSpec_by_passphrase examplePkg).2.2 ⟨1, none, "hunter2", ""⟩
      ⟨3, some ⟨["n1"]⟩, "hunter2", "x"⟩ rfl⟩

/-- For a volume that is not scaled, the release step of mount does
nothing. -/
theorem mountRelease_unscaled (v : VolumeDriver σ) (name : String) (vol : Volume)
    (mountpoint : String) (w : World σ) (h : ¬ 1 < vol.Spec.Scale) :
    mountRelease v name vol mountpoint w = (none, w) := by
  simp [mountRelease, h]

/-- C11, amended. `attachVol` issues one Attach of the replica it was given
and no other call; it returns that replica, with no error when the Attach
succeeds and with the error of the Attach otherwise, the
attached-on-remote-node error included. Consequently mounting a volume of
scale 1 on a block driver consists of the lookup of the volume by name,
Attach on the id of the volume the lookup gave and, when the Attach succeeds,
MkdirAll and Mount of the same id. Apart from the lookup, which is one entry
of the log whatever it asks of the driver, mount issues no Enumerate and no
Create: the two counters are over the calls of mount itself. -/
theorem attachVol_single_attach (v : VolumeDriver σ) (vol : Volume) (o : Option StrMap)
    (w : World σ) :
    (attachVol v vol o w).1.1 = vol ∧
    (attachVol v vol o w).1.2 =
      (match (v.Attach vol.Id o w.st).1 with
       | .ok _ => none
       | .error e => some e) ∧
    ((v.Attach vol.Id o w.st).1 = .error .ErrVolAttachedOnRemoteNode →
      (attachVol v vol o w).1 = (vol, some .ErrVolAttachedOnRemoteNode)) ∧
    (attachVol v vol o w).2.st = (v.Attach vol.Id o w.st).2 ∧
    (attachVol v vol o w).2.log =
      w.log ++ [Call.Attach vol.Id o (v.Attach vol.Id o w.st).1] ∧
    (∀ (pk : Pkg) (fuel : Nat) (spec : VolumeSpec) (name : String) (w1 : World σ)
        (lv : Volume),
      (v.VolumeFromName name w1.st).1 = .ok lv →
      lv.Spec.Scale = 1 →
      v.driverType = .DRIVER_TYPE_BLOCK →
      (mount pk fuel (.ok v) spec name w1).2.log =
          w1.log ++
            Call.VolumeFromName name (.ok lv) ::
            Call.Attach lv.Id (attachOptionsFromSpec pk spec)
              (v.Attach lv.Id (attachOptionsFromSpec pk spec)
                (v.VolumeFromName name w1.st).2).1 ::
            (match (v.Attach lv.Id (attachOptionsFromSpec pk spec)
                (v.VolumeFromName name w1.st).2).1 with
             | .ok _ =>
               [Call.MkdirAll (mountpath pk name),
                Call.Mount lv.Id (mountpath pk name) none
                  (v.Mount lv.Id (mountpath pk name) none
                    (v.Attach lv.Id (attachOptionsFromSpec pk spec)
                      (v.VolumeFromName name w1.st).2).2).1]
             | .error _ => []) ∧
        enumerateCount (mount pk fuel (.ok v) spec name w1).2.log = enumerateCount w1.log ∧
        createCount (mount pk fuel (.ok v) spec name w1).2.log = createCount w1.log) := by
  have herr := attachVol_err v vol o w
  have hvol := attachVol_vol v vol o w
  have hsnd := attachVol_snd v vol o w
  refine ⟨hvol, herr, ?_, ?_, ?_, ?_⟩
  · intro h
    have h1 : (vdAttach v vol.Id o w).1 = .error .ErrVolAttachedOnRemoteNode := h
    rw [h1] at herr
    exact Prod.ext hvol herr
  · rw [hsnd]
    rfl
  · rw [hsnd]
    rfl
  · intro pk fuel spec name w1 lv hv hs hb
    have hns : ¬ 1 < lv.Spec.Scale := by omega
    have hsc : lv.Scaled = false := by simp [Volume.Scaled, hs]
    have hlog : (mount pk fuel (.ok v) spec name w1).2.log =
        w1.log ++
          Call.VolumeFromName name (.ok lv) ::
          Call.Attach lv.Id (attachOptionsFromSpec pk spec)
            (v.Attach lv.Id (attachOptionsFromSpec pk spec)
              (v.VolumeFromName name w1.st).2).1 ::
          (match (v.Attach lv.Id (attachOptionsFromSpec pk spec)
              (v.VolumeFromName name w1.st).2).1 with
           | .ok _ =>
             [Call.MkdirAll (mountpath pk name),
              Call.Mount lv.Id (mountpath pk name) none
                (v.Mount lv.Id (mountpath pk name) none
                  (v.Attach lv.Id (attachOptionsFromSpec pk spec)
                    (v.VolumeFromName name w1.st).2).2).1]
           | .error _ => []) := by
      cases ha : (v.Attach lv.Id (attachOptionsFromSpec pk spec)
          (v.VolumeFromName name w1.st).2).1 with
      | ok p =>
        cases hm : (v.Mount lv.Id (mountpath pk name) none
            (v.Attach lv.Id (attachOptionsFromSpec pk spec)
              (v.VolumeFromName name w1.st).2).2).1 <;>
          simp [mount, mountRelease, mountAttach, attachVol, volFromName, vdAttach, vdMount,
            osMkdirAll, hv, hns, hsc, hb, ha, hm]
      | error e =>
        cases e <;>
          simp [mount, mountRelease, mountAttach, attachVol, volFromName, vdAttach, hv, hns,
            hsc, hb, ha]
    refine ⟨hlog, ?_, ?_⟩
    · rw [hlog]
      cases (v.Attach lv.Id (attachOptionsFromSpec pk spec)
          (v.VolumeFromName name w1.st).2).1 <;>
        simp [enumerateCount, Call.isEnumerate]
    · rw [hlog]
      cases (v.Attach lv.Id (attachOptionsFromSpec pk spec)
          (v.VolumeFromName name w1.st).2).1 <;>
        simp [createCount, Call.isCreate]

/-- C11 amended, at an example: mounting the unscaled volume `db1` on a
block driver attaches and mounts `db1` itself. -/
theorem attachVol_single_attach_witness :
    (mount examplePkg 0 (.ok fresh) (mkVol "db1" 1).Spec "db1" w0).2.log =
      [Call.VolumeFromName "db1" (.ok (mkVol "db1" 1)),
       Call.Attach "db1" none (.ok "/dev/c"),
       Call.MkdirAll "/mnt/db1",
       Call.Mount "db1" "/mnt/db1" none none] :=
  ((attachVol_single_attach fresh (mkVol "db1" 1) none w0).2.2.2.2.2 examplePkg 0
    (mkVol "db1" 1).Spec "db1" w0 (mkVol "db1" 1) rfl rfl rfl).1.trans (by decide)

theorem vdUnmount_eq {v : VolumeDriver σ} {id path : String} {o : Option StrMap}
    {w w1 : World σ} {r : Option Error} (h : vdUnmount v id path o w = (r, w1)) :
    w1.log = w.log ++ [Call.Unmount id path o r] := by
  have h1 : (vdUnmount v id path o w).2.log =
      w.log ++ [Call.Unmount id path o (vdUnmount v id path o w).1] := rfl
  rw [h] at h1
  exact h1

theorem vdMount_eq {v : VolumeDriver σ} {id path : String} {o : Option StrMap}
    {w w1 : World σ} {r : Option Error} (h : vdMount v id path o w = (r, w1)) :
    w1.log = w.log ++ [Call.Mount id path o r] ∧ r = (v.Mount id path o w.st).1 := by
  have h1 : (vdMount v id path o w).2.log =
      w.log ++ [Call.Mount id path o (vdMount v id path o w).1] := rfl
  have h2 : (vdMount v id path o w).1 = (v.Mount id path o w.st).1 := rfl
  rw [h] at h1 h2
  exact ⟨h1, h2⟩

/-- On a driver that is not of block type, the release step of mount calls
only MountedAt and Unmount. -/
theorem mountRelease_nonblock_countP (q : Call → Bool)
    (hq1 : ∀ p id, q (Call.MountedAt p id) = false)
    (hq2 : ∀ id p o r, q (Call.Unmount id p o r) = false)
    (v : VolumeDriver σ) (name : String) (vol : Volume) (mountpoint : String)
    (w : World σ) (hb : v.driverType ≠ .DRIVER_TYPE_BLOCK) :
    (mountRelease v name vol mountpoint w).2.log.countP q = w.log.countP q := by
  unfold mountRelease
  split
  · simp only [vdMountedAt]
    split
    · split
      · rename_i e w2 hu
        simp [vdUnmount_eq hu, hq1, hq2]
      · rename_i w2 hu
        simp [vdUnmount_eq hu, hq1, hq2, hb]
    · simp [hq1]
  · rfl

/-- On a driver that is not of block type, mount calls only the lookup,
MountedAt, Unmount, MkdirAll and Mount. -/
theorem mount_nonblock_countP (q : Call → Bool)
    (hq0 : ∀ n r, q (Call.VolumeFromName n r) = false)
    (hq1 : ∀ p id, q (Call.MountedAt p id) = false)
    (hq2 : ∀ id p o r, q (Call.Unmount id p o r) = false)
    (hq3 : ∀ p, q (Call.MkdirAll p) = false)
    (hq4 : ∀ id p o r, q (Call.Mount id p o r) = false)
    (pk : Pkg) (fuel : Nat) (v : VolumeDriver σ) (spec : VolumeSpec) (name : String)
    (w : World σ) (hb : v.driverType ≠ .DRIVER_TYPE_BLOCK) :
    (mount pk fuel (.ok v) spec name w).2.log.countP q = w.log.countP q := by
  unfold mount
  simp only
  split
  · rename_i err w1 hv
    simp [volFromName_eq hv, hq0]
  · rename_i vol w1 hv
    have hw1 : w1.log.countP q = w.log.countP q := by
      simp [volFromName_eq hv, hq0]
    have hrel := mountRelease_nonblock_countP q hq1 hq2 v name vol (mountpath pk name) w1 hb
    split
    · rename_i err w2 hr
      rw [hr] at hrel
      simp only at hrel ⊢
      omega
    · rename_i w2 hr
      rw [hr] at hrel
      simp only at hrel
      simp only [mountAttach, if_neg hb]
      split
      · rename_i err w4 hm
        simp only [(vdMount_eq hm).1, osMkdirAll, List.countP_append, List.countP_cons,
          List.countP_nil, hq3, hq4]
        simp
        omega
      · rename_i w4 hm
        simp only [(vdMount_eq hm).1, osMkdirAll, List.countP_append, List.countP_cons,
          List.countP_nil, hq3, hq4]
        simp
        omega

/-- C12, amended. On a driver whose type is not block, mount issues no
Attach and no Create, whatever the scale of the volume, and apart from the
lookup of the volume by name, which is one entry of the log whatever it asks
of the driver, no Enumerate: the counters are over the calls of mount itself.
When the lookup gives the volume `lv` and the release of the mount path
passes, the calls that follow are MkdirAll and the backend Mount of the id of
`lv` itself at the mount path, and that Mount is the only Mount call of the
request. -/
theorem mount_nonblock_skips_attach (pk : Pkg) (fuel : Nat) (v : VolumeDriver σ)
    (spec : VolumeSpec) (name : String) (w : World σ)
    (hb : v.driverType ≠ .DRIVER_TYPE_BLOCK) :
    attachCount (mount pk fuel (.ok v) spec name w).2.log = attachCount w.log ∧
    enumerateCount (mount pk fuel (.ok v) spec name w).2.log = enumerateCount w.log ∧
    createCount (mount pk fuel (.ok v) spec name w).2.log = createCount w.log ∧
    (∀ (lv : Volume) (w1 : World σ) (r : Option Error) (w2 : World σ),
      volFromName v name w = (.ok lv, w1) →
      mountRelease v name lv (mountpath pk name) w1 = (r, w2) →
      mountCount w2.log = mountCount w.log ∧
      (∀ e, r = some e → mount pk fuel (.ok v) spec name w = (some (.error e), w2)) ∧
      (r = none →
        (mount pk fuel (.ok v) spec name w).2.log =
          w2.log ++ [Call.MkdirAll (mountpath pk name),
            Call.Mount lv.Id (mountpath pk name) none
              (v.Mount lv.Id (mountpath pk name) none w2.st).1])) := by
  refine ⟨?_, ?_, ?_, ?_⟩
  · exact mount_nonblock_countP Call.isAttach (fun _ _ => rfl) (fun _ _ => rfl)
      (fun _ _ _ _ => rfl) (fun _ => rfl) (fun _ _ _ _ => rfl) pk fuel v spec name w hb
  · exact mount_nonblock_countP Call.isEnumerate (fun _ _ => rfl) (fun _ _ => rfl)
      (fun _ _ _ _ => rfl) (fun _ => rfl) (fun _ _ _ _ => rfl) pk fuel v spec name w hb
  · exact mount_nonblock_countP Call.isCreate (fun _ _ => rfl) (fun _ _ => rfl)
      (fun _ _ _ _ => rfl) (fun _ => rfl) (fun _ _ _ _ => rfl) pk fuel v spec name w hb
  · intro lv w1 r w2 hv hr
    have hrel := mountRelease_nonblock_countP Call.isMount (fun _ _ => rfl)
      (fun _ _ _ _ => rfl) v name lv (mountpath pk name) w1 hb
    rw [hr] at hrel
    refine ⟨?_, ?_, ?_⟩
    · simp only [mountCount]
      simp only at hrel
      rw [hrel, volFromName_eq hv]
      simp [Call.isMount]
    · intro e he
      subst he
      simp only [mount, hv, hr]
    · intro he
      subst he
      simp only [mount, hv, hr, mountAttach, if_neg hb]
      split
      · rename_i err w4 hm
        rw [(vdMount_eq hm).1, (vdMount_eq hm).2]
        simp [osMkdirAll]
      · rename_i w4 hm
        rw [(vdMount_eq hm).1, (vdMount_eq hm).2]
        simp [osMkdirAll]

/-- C12 amended, at an example: mounting the scaled volume `c` on a
file-type driver looks the volume up, finds the path free, and mounts `c`
itself. -/
theorem mount_nonblock_skips_attach_witness :
    attachCount (mount examplePkg 0 (.ok fileDriver) (mkVol "c" 2).Spec "c" w0).2.log =
        attachCount w0.log ∧
      (mount examplePkg 0 (.ok fileDriver) (mkVol "c" 2).Spec "c" w0).2.log =
        [Call.VolumeFromName "c" (.ok (mkVol "c" 2)),
         Call.MountedAt "/mnt/c" "",
         Call.MkdirAll "/mnt/c",
         Call.Mount "c" "/mnt/c" none none] :=
  ⟨(mount_nonblock_skips_attach examplePkg 0 fileDriver (mkVol "c" 2).Spec "c" w0
      (by decide)).1, by decide⟩

/-- C1, at a failing input. The replicas `c_000` and `c_001` of the volume
`c` of scale 3 exist and do not attach, and the unfiltered Enumerate fails.
`attachScale` does not look at that error, takes the empty list it got for
the replicas there are, and, after the collisions on `c_000` and `c_001`,
creates `c_002`, `c_003` and `c_004`: three successful Create calls where
the scale leaves room for one, and five replicas for a scale of 3. -/
theorem attachScale_overcreates_when_enumerate_fails :
    (enumerateDown.Enumerate (allLocator (mkVol "c" 3)) ["c_000", "c_001"]).1 =
        ([], some (.other "enumerate failed")) ∧
      (attachScale examplePkg 10 enumerateDown (mkVol "c" 3) none
        ⟨["c_000", "c_001"], []⟩).1 = some (.error .ErrVolAttachedScale) ∧
      createNames (attachScale examplePkg 10 enumerateDown (mkVol "c" 3) none
        ⟨["c_000", "c_001"], []⟩).2.log =
          ["c_000", "c_000", "c_001", "c_002", "c_003", "c_004"] ∧
      createOkCount (attachScale examplePkg 10 enumerateDown (mkVol "c" 3) none
        ⟨["c_000", "c_001"], []⟩).2.log = 3 ∧
      (attachScale examplePkg 10 enumerateDown (mkVol "c" 3) none
        ⟨["c_000", "c_001"], []⟩).2.st =
          ["c_000", "c_001", "c_002", "c_003", "c_004"] := by
  decide

/-- C11, refuted: mounting the volume named `db1`, of scale 1 and id `vol-1`,
on a block driver. The lookup by name misses on Inspect, since `db1` is not
an id, and enumerates by name: the backend, which had served no Enumerate
before, has served Enumerate(`db1`) when mount returns. The log of mount
holds that lookup as one entry. -/
theorem mount_unscaled_block_lookup_enumerates :
    servedVol.Spec.Scale = 1 ∧
      (mount examplePkg 0 (.ok (served .DRIVER_TYPE_BLOCK)) servedVol.Spec "db1"
        ⟨[], []⟩).1 = some (.ok "/mnt/db1") ∧
      (mount examplePkg 0 (.ok (served .DRIVER_TYPE_BLOCK)) servedVol.Spec "db1"
        ⟨[], []⟩).2.st = [⟨"db1", []⟩] ∧
      (mount examplePkg 0 (.ok (served .DRIVER_TYPE_BLOCK)) servedVol.Spec "db1"
        ⟨[], []⟩).2.log =
          [Call.VolumeFromName "db1" (.ok servedVol),
           Call.Attach "vol-1" none (.ok "/dev/v1"),
           Call.MkdirAll "/mnt/db1",
           Call.Mount "vol-1" "/mnt/db1" none none] := by
  decide

/-- C12, refuted: mounting the volume named `db1` on a file-type driver. The
lookup by name misses on Inspect and enumerates by name: the backend, which
had served no Enumerate before, has served Enumerate(`db1`) when mount
returns. -/
theorem mount_nonblock_lookup_enumerates :
    (served .DRIVER_TYPE_FILE).driverType ≠ .DRIVER_TYPE_BLOCK ∧
      (mount examplePkg 0 (.ok (served .DRIVER_TYPE_FILE)) servedVol.Spec "db1"
        ⟨[], []⟩).1 = some (.ok "/mnt/db1") ∧
      (mount examplePkg 0 (.ok (served .DRIVER_TYPE_FILE)) servedVol.Spec "db1"
        ⟨[], []⟩).2.st = [⟨"db1", []⟩] ∧
      (mount examplePkg 0 (.ok (served .DRIVER_TYPE_FILE)) servedVol.Spec "db1"
        ⟨[], []⟩).2.log =
          [Call.VolumeFromName "db1" (.ok servedVol),
           Call.MkdirAll "/mnt/db1",
           Call.Mount "vol-1" "/mnt/db1" none none] := by
  decide

end OpenStorage
